import Mathlib

/-!
# Verification of the league-pairings multi-phase scheduling engine

Shallow embedding of the core scheduling code of the `league-pairings`
repository (`service/models/phases/schedule.py`, `phase_1a_coverage.py`,
`phase_1c_displacement.py`, `controller.py`, `base_phase.py`,
`phase_2_greedy.py`, `data_model.py`) together with theorems settling the
specification claims about it.

Modelling conventions, chosen to mirror the Python source faithfully:

* Integer-valued dictionary fields (`teamA`, `teamB`, `tsl_id`,
  `timeslot_id`, ...) are modelled as `Nat`, with `0` playing the role of a
  falsy value (`None` or `0`): every Python truthiness test `if x:` on such
  a field is translated as `x ≠ 0`.  This is observationally faithful
  because `None` and `0` flow through the modelled code identically.
* Calendar dates are modelled as integers (day numbers) with the convention
  that `d % 7 = 6` means Sunday, matching Python's `date.weekday() == 6`.
  The `strptime` normalisation of string dates is folded away (it is pure
  format conversion).
* Python dictionaries used purely through `get`/`in`/item access are
  modelled extensionally as functions into `Option`/`List`; `defaultdict`
  entries holding `[]` are identified with absent entries, which is exactly
  how the source reads them (always via `.get(key, [])` or truthiness).
  The insertion-ordered `week_mapping` dictionary is kept as a list because
  `_teams_played_recently` iterates over it in order.
* String fields (team names, division names, location names) are dropped:
  the modelled code never branches on them and they are functions of the
  id fields, so dictionary equality is unaffected.
* `random.choice(lst)` is modelled by an ambient index stream
  `rnd : Nat → Nat` together with a cursor that advances at each call; the
  chosen element is `lst[rnd k % lst.length]`.  All theorems about random
  choices hold for every stream, hence for every realisation of Python's
  RNG.
* Mutating methods are modelled as pure functions returning the new state
  (paired with the Python return value).  Python exceptions that the
  modelled code can not raise on the considered inputs are not modelled;
  `schedule.add_game` is a total function, which reflects the fact that it
  signals constraint conflicts through its `bool` result and not through
  exceptions.
-/

namespace LeaguePairings

/-- A committed or candidate-bound game dictionary, as produced by the
phases and consumed by `Schedule`.  The `other` field stands for the
remaining dictionary entries (weights, ids, ...) that the modelled code
never reads but that participate in Python dictionary equality. -/
structure Game where
  teamA : Nat
  teamB : Nat
  divisionId : Nat
  timeslotId : Nat
  locationId : Nat
  tslId : Nat
  date : Int
  modifier : Nat
  other : Nat := 0
  deriving DecidableEq, Repr

/-- One TSL (timeslot × location) record of `DataModel.tsls`. -/
structure Tsl where
  tslId : Nat
  timeslotId : Nat
  locationId : Nat
  date : Int
  modifier : Nat
  deriving DecidableEq, Repr

/-- A team record. `prevRank` is `previous_year_ranking` (`none` = key
absent/NULL); `preferredLocationId = 0` models an absent/falsy preferred
location. -/
structure Team where
  teamId : Nat
  divisionId : Nat
  prevRank : Option Int
  preferredLocationId : Nat
  deriving DecidableEq, Repr

/-- A historical game record from `previous_games`. -/
structure PrevGame where
  team1 : Nat
  team2 : Nat
  score1 : Option Int
  score2 : Option Int
  date : Option Int
  deriving DecidableEq, Repr

/-- One entry of the insertion-ordered `week_mapping` dictionary:
timeslot id ↦ (week number, week start).  The week-end component is
never read by the modelled code and is omitted. -/
structure WeekEntry where
  ts : Nat
  week : Nat
  weekStart : Int
  deriving DecidableEq, Repr

/-- The `DataModel` fields consumed by the scheduling engine. -/
structure Model where
  divisionIds : List Nat
  teams : List Team
  tsls : List Tsl
  prevGames : List PrevGame
  weekEntries : List WeekEntry
  dayEntries : List (Nat × Int)
  /-- `team_availability` as `team_id ↦ set of timeslot ids`
  (`.get(id, set())` makes it total with default `[]`). -/
  teamAvail : Nat → List Nat
  /-- `division_preferred_locations` as read by phases 1B/2
  (`.get(division_id, set())`). -/
  divisionPreferredLocations : Nat → List Nat

/-- `model.team_lookup.get(t)`; the dict comprehension over `self.teams`
keeps the first record for each id in our list model. -/
def Model.teamLookup (M : Model) (t : Nat) : Option Team :=
  M.teams.find? (fun tm => tm.teamId == t)

/-- `team_lookup.get(t, {}).get('division_id')`. -/
def Model.teamDivision (M : Model) (t : Nat) : Option Nat :=
  (M.teamLookup t).map (·.divisionId)

/-- `model.day_mapping.get(ts)` / `ts in model.day_mapping`. -/
def Model.dayOf (M : Model) (ts : Nat) : Option Int :=
  (M.dayEntries.find? (fun e => e.1 == ts)).map (·.2)

/-- `model.week_mapping[ts][0]`, as an optional lookup. -/
def Model.weekOf (M : Model) (ts : Nat) : Option Nat :=
  (M.weekEntries.find? (fun e => e.ts == ts)).map (·.week)

/-- `model.teams_by_division.get(d, [])` (grouping of `self.teams`
by division, preserving order). -/
def Model.teamsByDivision (M : Model) (d : Nat) : List Team :=
  M.teams.filter (fun tm => tm.divisionId == d)

/-- `model.team_season_games.get(t, 0)`: one count per appearance as
`team_1_id` plus one per appearance as `team_2_id` in `previous_games`. -/
def Model.teamSeasonGames (M : Model) (t : Nat) : Nat :=
  M.prevGames.countP (fun g => g.team1 == t)
    + M.prevGames.countP (fun g => g.team2 == t)

/-- The `Schedule` state: the games list plus the four indexes.
The dictionaries are modelled extensionally as functions. -/
@[ext]
structure Schedule where
  games : List Game
  byTsl : Nat → Option Game
  byTeamDay : Nat × Int → List Game
  byTeamWeek : Nat × Nat → List Game
  usedTsls : Nat → Bool

/-- `Schedule.__init__`: empty schedule. -/
def Schedule.empty : Schedule where
  games := []
  byTsl := fun _ => none
  byTeamDay := fun _ => []
  byTeamWeek := fun _ => []
  usedTsls := fun _ => false

/-- The constraint-violation tags produced by `_check_constraints`
(the log strings carry no further information read by the code). -/
inductive Violation where
  | tslUsed
  | dayTeamA
  | dayTeamB
  | weekTeamA
  | weekTeamB
  | divisionMismatch
  | selfPlay
  deriving DecidableEq, Repr

/-- `Schedule._check_constraints`, with `mx = self.max_games_per_week`. -/
def checkConstraints (M : Model) (mx : Nat) (S : Schedule) (g : Game) :
    List Violation :=
  -- Constraint 1: only one game per TSL
  let v1 := if (S.byTsl g.tslId).isSome then [Violation.tslUsed] else []
  -- Constraint 2: only one game per team per day
  -- (guard `if timeslot_id and timeslot_id in self.model.day_mapping`)
  let v2 :=
    if g.timeslotId ≠ 0 then
      match M.dayOf g.timeslotId with
      | some d =>
          (if S.byTeamDay (g.teamA, d) ≠ [] then [Violation.dayTeamA] else [])
            ++ (if S.byTeamDay (g.teamB, d) ≠ [] then [Violation.dayTeamB] else [])
      | none => []
    else []
  -- Constraint 3: max games per team per week
  let v3 :=
    if g.timeslotId ≠ 0 then
      match M.weekOf g.timeslotId with
      | some w =>
          (if mx ≤ (S.byTeamWeek (g.teamA, w)).length then [Violation.weekTeamA] else [])
            ++ (if mx ≤ (S.byTeamWeek (g.teamB, w)).length then [Violation.weekTeamB] else [])
      | none => []
    else []
  -- Constraint 4: teams only play within their division
  -- (guard `if team_a and team_b:`)
  let v4 :=
    if g.teamA ≠ 0 ∧ g.teamB ≠ 0 then
      if M.teamDivision g.teamA ≠ M.teamDivision g.teamB then
        [Violation.divisionMismatch]
      else []
    else []
  -- Constraint 5: team cannot play itself
  let v5 := if g.teamA = g.teamB then [Violation.selfPlay] else []
  v1 ++ v2 ++ v3 ++ v4 ++ v5

/-- `Schedule._update_indexes_add`. -/
def updateIndexesAdd (M : Model) (S : Schedule) (g : Game) : Schedule :=
  -- TSL index (guard `if tsl_id:`)
  let S1 :=
    if g.tslId ≠ 0 then
      { S with
        byTsl := fun t => if t = g.tslId then some g else S.byTsl t
        usedTsls := fun t => t == g.tslId || S.usedTsls t }
    else S
  -- team-day index
  let S2 :=
    if g.timeslotId ≠ 0 then
      match M.dayOf g.timeslotId with
      | some d =>
          { S1 with
            byTeamDay := fun k =>
              if k = (g.teamA, d) ∨ k = (g.teamB, d) then
                S1.byTeamDay k ++ [g]
              else S1.byTeamDay k }
      | none => S1
    else S1
  -- team-week index
  if g.timeslotId ≠ 0 then
    match M.weekOf g.timeslotId with
    | some w =>
        { S2 with
          byTeamWeek := fun k =>
            if k = (g.teamA, w) ∨ k = (g.teamB, w) then
              S2.byTeamWeek k ++ [g]
            else S2.byTeamWeek k }
    | none => S2
  else S2

/-- `Schedule._update_indexes_remove`.  `list.remove(x)` is first-occurrence
removal, i.e. `List.erase`; deleting a possibly-absent key is extensionally
the unconditional function update. -/
def updateIndexesRemove (M : Model) (S : Schedule) (g : Game) : Schedule :=
  let S1 :=
    if g.tslId ≠ 0 then
      { S with
        byTsl := fun t => if t = g.tslId then none else S.byTsl t
        usedTsls := fun t => if t == g.tslId then false else S.usedTsls t }
    else S
  let S2 :=
    if g.timeslotId ≠ 0 then
      match M.dayOf g.timeslotId with
      | some d =>
          { S1 with
            byTeamDay := fun k =>
              if k = (g.teamA, d) ∨ k = (g.teamB, d) then
                (S1.byTeamDay k).erase g
              else S1.byTeamDay k }
      | none => S1
    else S1
  if g.timeslotId ≠ 0 then
    match M.weekOf g.timeslotId with
    | some w =>
        { S2 with
          byTeamWeek := fun k =>
            if k = (g.teamA, w) ∨ k = (g.teamB, w) then
              (S2.byTeamWeek k).erase g
            else S2.byTeamWeek k }
    | none => S2
  else S2

/-- `Schedule.add_game`: the returned `Bool` is the Python return value,
the returned `Schedule` is the state after the call. -/
def addGame (M : Model) (mx : Nat) (S : Schedule) (g : Game) :
    Bool × Schedule :=
  if checkConstraints M mx S g ≠ [] then (false, S)
  else (true, updateIndexesAdd M { S with games := S.games ++ [g] } g)

/-- `Schedule.remove_game` (`game in self.games` / `list.remove`). -/
def removeGame (M : Model) (S : Schedule) (g : Game) : Bool × Schedule :=
  if g ∈ S.games then
    (true, updateIndexesRemove M { S with games := S.games.erase g } g)
  else (false, S)

/-- `Schedule.get_team_games_in_week`. -/
def Schedule.getTeamGamesInWeek (S : Schedule) (t : Nat) (w : Nat) :
    List Game :=
  S.byTeamWeek (t, w)

/-- `Schedule.is_tsl_used`. -/
def Schedule.isTslUsed (S : Schedule) (tsl : Nat) : Bool :=
  S.usedTsls tsl

/-- `Schedule.get_games_for_week`. -/
def getGamesForWeek (M : Model) (S : Schedule) (w : Nat) : List Game :=
  S.games.filter (fun g =>
    g.timeslotId != 0 && M.weekOf g.timeslotId == some w)

/-! ## Strength scores (`base_phase.py`, `phase_1a_coverage.py`,
`phase_2_greedy.py`) -/

/-- `team.get('previous_year_ranking', 999) or 999`: an absent ranking and
a falsy (zero) ranking both fall back to `999`. -/
def effRank (tm : Team) : Int :=
  match tm.prevRank with
  | none => 999
  | some r => if r = 0 then 999 else r

/-- The win/loss tally over `previous_games` shared (verbatim) by
`BasePhase._calculate_season_ranking`,
`Phase1ACoverage._calculate_team_strength_score` and
`Phase2Greedy._calculate_team_strength_score`: only games with both scores
present count, ties count as losses, and a game matches on `team_1_id`
first (`elif` on `team_2_id`). -/
def winLoss (M : Model) (t : Nat) : Nat × Nat :=
  M.prevGames.foldl
    (fun wl g =>
      if g.team1 = t then
        match g.score1, g.score2 with
        | some s1, some s2 =>
            if s1 > s2 then (wl.1 + 1, wl.2) else (wl.1, wl.2 + 1)
        | _, _ => wl
      else if g.team2 = t then
        match g.score1, g.score2 with
        | some s1, some s2 =>
            if s2 > s1 then (wl.1 + 1, wl.2) else (wl.1, wl.2 + 1)
        | _, _ => wl
      else wl)
    (0, 0)

/-- `Phase1ACoverage._calculate_team_strength_score`
(`score = previous_year_ranking - wins + losses`). -/
def phase1aStrength (M : Model) (tm : Team) : Int :=
  let wl := winLoss M tm.teamId
  effRank tm - wl.1 + wl.2

/-- `Phase2Greedy._calculate_team_strength_score` — a verbatim duplicate of
the Phase 1A override in the source. -/
def phase2Strength (M : Model) (tm : Team) : Int :=
  let wl := winLoss M tm.teamId
  effRank tm - wl.1 + wl.2

/-- `BasePhase._has_sufficient_season_data`: true iff `previous_games` is
nonempty, has at least one dated game, and the date span satisfies
`days / 7 > 3`, i.e. `days > 21`. -/
def hasSufficientSeasonData (M : Model) : Bool :=
  if M.prevGames.isEmpty then false
  else
    match M.prevGames.filterMap (·.date) with
    | [] => false
    | d :: ds => decide (21 < ds.foldl max d - ds.foldl min d)

/-- `BasePhase._calculate_season_ranking`:
`999` with no scored games, else `(1 - win_pct) * 100`. -/
def calculateSeasonRanking (M : Model) (t : Nat) : ℚ :=
  let wl := winLoss M t
  if wl.1 + wl.2 = 0 then 999
  else (1 - (wl.1 : ℚ) / ((wl.1 : ℚ) + (wl.2 : ℚ))) * 100

/-- `BasePhase._calculate_team_strength_score` (the formula described in
the specification: season record when > 3 weeks of data, else previous
year ranking). -/
def baseStrength (M : Model) (tm : Team) : ℚ :=
  if hasSufficientSeasonData M then calculateSeasonRanking M tm.teamId
  else (effRank tm : ℚ)

/-! ## Recency and Sunday tests (shared, duplicated verbatim in every
phase class) -/

/-- Sunday test: dates are day numbers with `d % 7 = 6` ⟺ Sunday
(Python `date.weekday() == 6`). -/
def isSundayDay (d : Int) : Bool := d.emod 7 == 6

/-- `_is_sunday_tsl` (identical in all phase classes). -/
def isSundayTsl (M : Model) (t : Tsl) : Bool :=
  if t.timeslotId = 0 then false
  else
    match M.dayOf t.timeslotId with
    | some d => isSundayDay d
    | none => false

/-- `_game_involves_both_teams` on a `previous_games` record
(`{team_1_id, team_2_id} == {a, b}` as sets). -/
def involvesBothPrev (g : PrevGame) (a b : Nat) : Bool :=
  (g.team1 == a || g.team1 == b) && (g.team2 == a || g.team2 == b)
    && (a == g.team1 || a == g.team2) && (b == g.team1 || b == g.team2)

/-- `_game_involves_both_teams` on a scheduled game
(`{teamA, teamB} == {a, b}` as sets). -/
def involvesBothSched (g : Game) (a b : Nat) : Bool :=
  (g.teamA == a || g.teamA == b) && (g.teamB == a || g.teamB == b)
    && (a == g.teamA || a == g.teamB) && (b == g.teamA || b == g.teamB)

/-- `_teams_played_recently` (identical in all phase classes): a dated
historical meeting counted against the week start of the first
`week_mapping` entry for the current week (`//` is floor division), or any
meeting in the schedule under construction. -/
def playedRecently (M : Model) (S : Schedule) (a b curWeek weeksBack : Nat) :
    Bool :=
  (M.prevGames.any (fun g =>
    involvesBothPrev g a b &&
      match g.date with
      | none => false
      | some gd =>
          if M.weekEntries.isEmpty then false
          else
            match M.weekEntries.find? (fun e => e.week == curWeek) with
            | some e =>
                let weeksAgo := Int.fdiv (e.weekStart - gd) 7
                decide (0 < weeksAgo ∧ weeksAgo ≤ (weeksBack : Int))
            | none => false))
    || S.games.any (fun g => involvesBothSched g a b)

/-! ## Phase 1A (`phase_1a_coverage.py`) -/

/-- Placeholder records used only to totalise list indexing / dictionary
access whose success is established separately (Python raises there). -/
def dummyTsl : Tsl := ⟨0, 0, 0, 0, 0⟩

def dummyTeam : Team := ⟨0, 0, none, 0⟩

/-- `random.choice(l)` at cursor `k` of the index stream. -/
def chooseFrom (rnd : Nat → Nat) (k : Nat) (l : List Tsl) : Tsl :=
  l.getD (rnd k % l.length) dummyTsl

/-- Team ids appearing in this week's games (the `scheduled_team_ids`
set). -/
def scheduledTeamIdsForWeek (M : Model) (S : Schedule) (w : Nat) :
    List Nat :=
  (getGamesForWeek M S w).flatMap (fun g => [g.teamA, g.teamB])

/-- `Phase1ACoverage._get_unscheduled_teams_sorted`: unscheduled teams
sorted ascending by the Phase 1A strength score (`list.sort` is a stable
sort; so is `insertionSort` with `≤`). -/
def getUnscheduledTeamsSorted (M : Model) (teams : List Team)
    (S : Schedule) (w : Nat) : List Team :=
  let sched := scheduledTeamIdsForWeek M S w
  let uns := teams.filter (fun t => !(sched.contains t.teamId))
  uns.insertionSort (fun a b => phase1aStrength M a ≤ phase1aStrength M b)

/-- The TSL filter of `_try_to_find_game` (identical in all phases):
available to both teams, in the current week, unused. -/
def availableTslsFor (M : Model) (S : Schedule) (a b w : Nat) : List Tsl :=
  M.tsls.filter (fun tsl =>
    (M.teamAvail a).contains tsl.timeslotId
      && (M.teamAvail b).contains tsl.timeslotId
      && (match M.weekOf tsl.timeslotId with
          | some tw => tw == w
          | none => false)
      && !(S.isTslUsed tsl.tslId))

/-- The game dictionary built by `_try_to_find_game` from the chosen TSL
(`self.model.team_lookup[team1_id]`; name fields dropped). -/
def mkGameFromTsl (M : Model) (a b : Nat) (c : Tsl) : Game :=
  let t1 := (M.teamLookup a).getD dummyTeam
  { teamA := a, teamB := b, divisionId := t1.divisionId
    timeslotId := c.timeslotId, locationId := c.locationId
    tslId := c.tslId, date := c.date, modifier := c.modifier }

/-- The joint preferred-location set of the two teams
(falsy preferred ids are skipped). -/
def preferredLocationIds (M : Model) (a b : Nat) : List Nat :=
  let t1 := (M.teamLookup a).getD dummyTeam
  let t2 := (M.teamLookup b).getD dummyTeam
  (if t1.preferredLocationId ≠ 0 then [t1.preferredLocationId] else [])
    ++ (if t2.preferredLocationId ≠ 0 then [t2.preferredLocationId] else [])

/-- The `preferred_sunday_tsls` tier of
`Phase1ACoverage._try_to_find_game`. -/
def phase1aPrefSunTier (M : Model) (S : Schedule) (a b w : Nat) :
    List Tsl :=
  (availableTslsFor M S a b w).filter (fun t =>
    (preferredLocationIds M a b).contains t.locationId && isSundayTsl M t)

/-- The `preferred_tsls` tier (preferred location, not Sunday). -/
def phase1aPrefAnyTier (M : Model) (S : Schedule) (a b w : Nat) :
    List Tsl :=
  (availableTslsFor M S a b w).filter (fun t =>
    (preferredLocationIds M a b).contains t.locationId && !isSundayTsl M t)

/-- The `sunday_tsls` tier (Sunday, not preferred). -/
def phase1aSunAnyTier (M : Model) (S : Schedule) (a b w : Nat) :
    List Tsl :=
  (availableTslsFor M S a b w).filter (fun t =>
    !((preferredLocationIds M a b).contains t.locationId)
      && isSundayTsl M t)

/-- `Phase1ACoverage._try_to_find_game`: 4-tier cascade
preferred+Sunday > preferred > Sunday > any, random within the tier. -/
def phase1aTryToFindGame (M : Model) (rnd : Nat → Nat) (S : Schedule)
    (a b w k : Nat) : Option Game × Nat :=
  if ¬ (M.teamAvail a).any (fun ts => (M.teamAvail b).contains ts) then
    (none, k)
  else
    let avail := availableTslsFor M S a b w
    if avail.isEmpty then (none, k)
    else
      let prefSun := phase1aPrefSunTier M S a b w
      let prefAny := phase1aPrefAnyTier M S a b w
      let sunAny := phase1aSunAnyTier M S a b w
      let chosen :=
        if !prefSun.isEmpty then chooseFrom rnd k prefSun
        else if !prefAny.isEmpty then chooseFrom rnd k prefAny
        else if !sunAny.isEmpty then chooseFrom rnd k sunAny
        else chooseFrom rnd k avail
      (some (mkGameFromTsl M a b chosen), k + 1)

/-- First pass of `_find_next_game_for_division`: opponents after the
focal team, skipping recently played pairs. -/
def phase1aPass1 (M : Model) (rnd : Nat → Nat) (S : Schedule) (w : Nat)
    (t1 : Team) : List Team → Nat → Option Game × Nat
  | [], k => (none, k)
  | t2 :: rest, k =>
      if playedRecently M S t1.teamId t2.teamId w 3 then
        phase1aPass1 M rnd S w t1 rest k
      else
        match phase1aTryToFindGame M rnd S t1.teamId t2.teamId w k with
        | (some g, k') => (some g, k')
        | (none, k') => phase1aPass1 M rnd S w t1 rest k'

/-- Second pass: any opponent. -/
def phase1aPass2 (M : Model) (rnd : Nat → Nat) (S : Schedule) (w : Nat)
    (t1 : Team) : List Team → Nat → Option Game × Nat
  | [], k => (none, k)
  | t2 :: rest, k =>
      match phase1aTryToFindGame M rnd S t1.teamId t2.teamId w k with
      | (some g, k') => (some g, k')
      | (none, k') => phase1aPass2 M rnd S w t1 rest k'

/-- The `for i, team1 in enumerate(...)` scan of
`_find_next_game_for_division`. -/
def phase1aScan (M : Model) (rnd : Nat → Nat) (S : Schedule) (w : Nat) :
    List Team → Nat → Option Game × Nat
  | [], k => (none, k)
  | t1 :: rest, k =>
      match phase1aPass1 M rnd S w t1 rest k with
      | (some g, k') => (some g, k')
      | (none, k1) =>
          match phase1aPass2 M rnd S w t1 rest k1 with
          | (some g, k') => (some g, k')
          | (none, k2) => phase1aScan M rnd S w rest k2

/-- `Phase1ACoverage._find_next_game_for_division`. -/
def phase1aFindNextGame (M : Model) (rnd : Nat → Nat) (teams : List Team)
    (S : Schedule) (w k : Nat) : Option Game × Nat :=
  let tw := getUnscheduledTeamsSorted M teams S w
  if tw.length < 2 then (none, k)
  else phase1aScan M rnd S w tw k

/-- One Phase 1A round: one attempted game per division, in division
order; the third component counts the games committed this round. -/
def phase1aRound (M : Model) (rnd : Nat → Nat) (mx w : Nat) :
    List Nat → Schedule → Nat → Nat → Schedule × Nat × Nat
  | [], S, k, cnt => (S, k, cnt)
  | d :: ds, S, k, cnt =>
      let teams := M.teamsByDivision d
      if teams.isEmpty then phase1aRound M rnd mx w ds S k cnt
      else
        match phase1aFindNextGame M rnd teams S w k with
        | (some g, k') =>
            match addGame M mx S g with
            | (true, S') => phase1aRound M rnd mx w ds S' k' (cnt + 1)
            | (false, S') => phase1aRound M rnd mx w ds S' k' cnt
        | (none, k') => phase1aRound M rnd mx w ds S k' cnt

/-- The `while True` round loop of `Phase1ACoverage.schedule`, stopped
when a round commits nothing.  `fuel` bounds the number of rounds; every
productive round consumes at least one fresh TSL of `model.tsls`, so
`model.tsls.length + 1` rounds reproduce the Python loop exactly. -/
def phase1aLoop (M : Model) (rnd : Nat → Nat) (mx w : Nat) :
    Nat → Schedule → Nat → Schedule × Nat
  | 0, S, k => (S, k)
  | fuel + 1, S, k =>
      let r := phase1aRound M rnd mx w M.divisionIds S k 0
      if r.2.2 = 0 then (r.1, r.2.1)
      else phase1aLoop M rnd mx w fuel r.1 r.2.1

/-- `Phase1ACoverage.schedule` (the `timeout` argument is ignored by the
source). -/
def phase1aSchedule (M : Model) (rnd : Nat → Nat) (mx : Nat)
    (S : Schedule) (k w : Nat) : Schedule × Nat :=
  phase1aLoop M rnd mx w (M.tsls.length + 1) S k

/-! ## Phase 1B (`phase_1b_optimal.py`) -/

/-- `_get_unscheduled_teams_for_week` (identical in phases 1B and 1C). -/
def getUnscheduledTeamsForWeek (M : Model) (teams : List Team)
    (S : Schedule) (w : Nat) : List Team :=
  let sched := scheduledTeamIdsForWeek M S w
  teams.filter (fun t => !(sched.contains t.teamId))

/-- `_filter_teams_under_weekly_limit` (identical in phases 1B and 1C). -/
def filterTeamsUnderWeeklyLimit (mx : Nat) (S : Schedule) (w : Nat)
    (teams : List Team) : List Team :=
  teams.filter (fun t =>
    decide ((S.getTeamGamesInWeek t.teamId w).length < mx))

/-- `Phase1BOptimal._try_to_find_game`: the 6-tier cascade
team-preferred+Sunday > division-preferred+Sunday > Sunday >
team-preferred > division-preferred > any.  `division_preferred_locations`
is read from the model (`.get(division_id, set())`). -/
def phase1bTryToFindGame (M : Model) (rnd : Nat → Nat) (S : Schedule)
    (a b w k : Nat) : Option Game × Nat :=
  if ¬ (M.teamAvail a).any (fun ts => (M.teamAvail b).contains ts) then
    (none, k)
  else
    let avail := availableTslsFor M S a b w
    if avail.isEmpty then (none, k)
    else
      let teamPref := preferredLocationIds M a b
      let t1 := (M.teamLookup a).getD dummyTeam
      let divPref := M.divisionPreferredLocations t1.divisionId
      let tier1 := avail.filter (fun t =>
        teamPref.contains t.locationId && isSundayTsl M t)
      let tier2 := avail.filter (fun t =>
        !(teamPref.contains t.locationId) && divPref.contains t.locationId
          && isSundayTsl M t)
      let tier3 := avail.filter (fun t =>
        !(teamPref.contains t.locationId)
          && !(divPref.contains t.locationId) && isSundayTsl M t)
      let tier4 := avail.filter (fun t =>
        teamPref.contains t.locationId && !isSundayTsl M t)
      let tier5 := avail.filter (fun t =>
        !(teamPref.contains t.locationId) && divPref.contains t.locationId
          && !isSundayTsl M t)
      let chosen :=
        if !tier1.isEmpty then chooseFrom rnd k tier1
        else if !tier2.isEmpty then chooseFrom rnd k tier2
        else if !tier3.isEmpty then chooseFrom rnd k tier3
        else if !tier4.isEmpty then chooseFrom rnd k tier4
        else if !tier5.isEmpty then chooseFrom rnd k tier5
        else chooseFrom rnd k avail
      (some (mkGameFromTsl M a b chosen), k + 1)

/-- First pass of `Phase1BOptimal._try_to_schedule_team`. -/
def phase1bPass1 (M : Model) (rnd : Nat → Nat) (S : Schedule) (w : Nat)
    (uid : Nat) : List Team → Nat → Option Game × Nat
  | [], k => (none, k)
  | t2 :: rest, k =>
      if playedRecently M S uid t2.teamId w 3 then
        phase1bPass1 M rnd S w uid rest k
      else
        match phase1bTryToFindGame M rnd S uid t2.teamId w k with
        | (some g, k') => (some g, k')
        | (none, k') => phase1bPass1 M rnd S w uid rest k'

/-- Second pass of `Phase1BOptimal._try_to_schedule_team`. -/
def phase1bPass2 (M : Model) (rnd : Nat → Nat) (S : Schedule) (w : Nat)
    (uid : Nat) : List Team → Nat → Option Game × Nat
  | [], k => (none, k)
  | t2 :: rest, k =>
      match phase1bTryToFindGame M rnd S uid t2.teamId w k with
      | (some g, k') => (some g, k')
      | (none, k') => phase1bPass2 M rnd S w uid rest k'

/-- `Phase1BOptimal._try_to_schedule_team`. -/
def phase1bTryToScheduleTeam (M : Model) (rnd : Nat → Nat) (mx : Nat)
    (u : Team) (teams : List Team) (S : Schedule) (w k : Nat) :
    Option Game × Nat :=
  let others := teams.filter (fun t => t.teamId != u.teamId)
  let avail := filterTeamsUnderWeeklyLimit mx S w others
  if avail.isEmpty then (none, k)
  else
    match phase1bPass1 M rnd S w u.teamId avail k with
    | (some g, k') => (some g, k')
    | (none, k1) => phase1bPass2 M rnd S w u.teamId avail k1

/-- The per-division loop body of `Phase1BOptimal.schedule`: attempt each
unscheduled team in turn (the unscheduled list is a snapshot; `add_game`
failures are ignored). -/
def phase1bForTeams (M : Model) (rnd : Nat → Nat) (mx w : Nat)
    (teams : List Team) : List Team → Schedule → Nat → Schedule × Nat
  | [], S, k => (S, k)
  | u :: us, S, k =>
      match phase1bTryToScheduleTeam M rnd mx u teams S w k with
      | (some g, k') =>
          phase1bForTeams M rnd mx w teams us (addGame M mx S g).2 k'
      | (none, k') => phase1bForTeams M rnd mx w teams us S k'

/-- The division loop of `Phase1BOptimal.schedule`. -/
def phase1bDivisions (M : Model) (rnd : Nat → Nat) (mx w : Nat) :
    List Nat → Schedule → Nat → Schedule × Nat
  | [], S, k => (S, k)
  | d :: ds, S, k =>
      let teams := M.teamsByDivision d
      if teams.isEmpty then phase1bDivisions M rnd mx w ds S k
      else
        let uns := getUnscheduledTeamsForWeek M teams S w
        if uns.isEmpty then phase1bDivisions M rnd mx w ds S k
        else
          let r := phase1bForTeams M rnd mx w teams uns S k
          phase1bDivisions M rnd mx w ds r.1 r.2

/-- `Phase1BOptimal.schedule`. -/
def phase1bSchedule (M : Model) (rnd : Nat → Nat) (mx : Nat)
    (S : Schedule) (k w : Nat) : Schedule × Nat :=
  phase1bDivisions M rnd mx w M.divisionIds S k

/-! ## Phase 1C (`phase_1c_displacement.py`) -/

/-- `_get_division_games_this_week`
(`game.get('division_id') == division_id`). -/
def divisionGamesThisWeek (M : Model) (S : Schedule) (d w : Nat) :
    List Game :=
  (getGamesForWeek M S w).filter (fun g => g.divisionId == d)

/-- `Phase1CDisplacement._try_to_find_game`: the 2-tier cascade
Sunday > any. -/
def phase1cTryToFindGame (M : Model) (rnd : Nat → Nat) (S : Schedule)
    (a b w k : Nat) : Option Game × Nat :=
  if ¬ (M.teamAvail a).any (fun ts => (M.teamAvail b).contains ts) then
    (none, k)
  else
    let avail := availableTslsFor M S a b w
    if avail.isEmpty then (none, k)
    else
      let sun := avail.filter (isSundayTsl M)
      let chosen :=
        if !sun.isEmpty then chooseFrom rnd k sun
        else chooseFrom rnd k avail
      (some (mkGameFromTsl M a b chosen), k + 1)

/-- The modified game of `_try_swap`: `original.copy()` with the displaced
team replaced by the unscheduled one. -/
def modifiedGameFor (orig : Game) (displacedId uid : Nat) : Game :=
  if orig.teamA = displacedId then { orig with teamA := uid }
  else { orig with teamB := uid }

/-- The partner loop of `_try_swap`. -/
def phase1cPartnerLoop (M : Model) (rnd : Nat → Nat) (S : Schedule)
    (w displacedId : Nat) : List Team → Nat → Option Game × Nat
  | [], k => (none, k)
  | p :: rest, k =>
      if playedRecently M S displacedId p.teamId w 3 then
        phase1cPartnerLoop M rnd S w displacedId rest k
      else
        match phase1cTryToFindGame M rnd S displacedId p.teamId w k with
        | (some g, k') => (some g, k')
        | (none, k') => phase1cPartnerLoop M rnd S w displacedId rest k'

/-- `Phase1CDisplacement._try_swap`: returns
(original, modified, replacement) on success. -/
def phase1cTrySwap (M : Model) (rnd : Nat → Nat) (mx : Nat) (u : Team)
    (displacedId remainingId : Nat) (orig : Game) (teams : List Team)
    (S : Schedule) (w k : Nat) : Option (Game × Game × Game) × Nat :=
  if ¬ (M.teamAvail u.teamId).contains orig.timeslotId then (none, k)
  else
    let partners := teams.filter (fun t =>
      t.teamId != u.teamId && t.teamId != remainingId)
    let avail := filterTeamsUnderWeeklyLimit mx S w partners
    if avail.isEmpty then (none, k)
    else
      match phase1cPartnerLoop M rnd S w displacedId avail k with
      | (some ng, k') =>
          (some (orig, modifiedGameFor orig displacedId u.teamId, ng), k')
      | (none, k') => (none, k')

/-- The per-game loop of `_try_team_substitution`: try displacing
`teamA`, then `teamB`, of each existing division game. -/
def phase1cGamesLoop (M : Model) (rnd : Nat → Nat) (mx : Nat) (u : Team)
    (teams : List Team) (S : Schedule) (w : Nat) :
    List Game → Nat → Option (Game × Game × Game) × Nat
  | [], k => (none, k)
  | g :: gs, k =>
      match phase1cTrySwap M rnd mx u g.teamA g.teamB g teams S w k with
      | (some r, k') => (some r, k')
      | (none, k1) =>
          match phase1cTrySwap M rnd mx u g.teamB g.teamA g teams S w k1 with
          | (some r, k') => (some r, k')
          | (none, k2) => phase1cGamesLoop M rnd mx u teams S w gs k2

/-- `Phase1CDisplacement._try_team_substitution`. -/
def phase1cTrySubstitution (M : Model) (rnd : Nat → Nat) (mx : Nat)
    (u : Team) (d : Nat) (teams : List Team) (S : Schedule) (w k : Nat) :
    Option (Game × Game × Game) × Nat :=
  let existing := divisionGamesThisWeek M S d w
  if existing.isEmpty then (none, k)
  else phase1cGamesLoop M rnd mx u teams S w existing k

/-- `Phase1CDisplacement._apply_swap`: remove the original game, add the
modified game, add the replacement game; on failure of either add, restore
by re-adding the original (and removing the modified game if it went
in). -/
def applySwap (M : Model) (mx : Nat) (S : Schedule)
    (orig modified newG : Game) : Schedule :=
  match removeGame M S orig with
  | (false, S0) => S0
  | (true, S1) =>
      match addGame M mx S1 modified with
      | (false, S1x) => (addGame M mx S1x orig).2
      | (true, S2) =>
          match addGame M mx S2 newG with
          | (false, S2x) =>
              (addGame M mx (removeGame M S2x modified).2 orig).2
          | (true, S3) => S3

/-- The unscheduled-team loop of `Phase1CDisplacement.schedule`. -/
def phase1cTeamsLoop (M : Model) (rnd : Nat → Nat) (mx : Nat) (d : Nat)
    (teams : List Team) (w : Nat) :
    List Team → Schedule → Nat → Schedule × Nat
  | [], S, k => (S, k)
  | u :: us, S, k =>
      match phase1cTrySubstitution M rnd mx u d teams S w k with
      | (some (orig, modified, ng), k') =>
          phase1cTeamsLoop M rnd mx d teams w us
            (applySwap M mx S orig modified ng) k'
      | (none, k') => phase1cTeamsLoop M rnd mx d teams w us S k'

/-- The division loop of `Phase1CDisplacement.schedule`. -/
def phase1cDivisions (M : Model) (rnd : Nat → Nat) (mx w : Nat) :
    List Nat → Schedule → Nat → Schedule × Nat
  | [], S, k => (S, k)
  | d :: ds, S, k =>
      let teams := M.teamsByDivision d
      if teams.isEmpty then phase1cDivisions M rnd mx w ds S k
      else
        let uns := getUnscheduledTeamsForWeek M teams S w
        if uns.isEmpty then phase1cDivisions M rnd mx w ds S k
        else
          let r := phase1cTeamsLoop M rnd mx d teams w uns S k
          phase1cDivisions M rnd mx w ds r.1 r.2

/-- `Phase1CDisplacement.schedule`. -/
def phase1cSchedule (M : Model) (rnd : Nat → Nat) (mx : Nat)
    (S : Schedule) (k w : Nat) : Schedule × Nat :=
  phase1cDivisions M rnd mx w M.divisionIds S k

/-! ## Phase 2 (`phase_2_greedy.py`) -/

/-- `_get_total_game_count` (identical in `BasePhase` and
`Phase2Greedy`): season games plus games committed this run. -/
def getTotalGameCount (M : Model) (t : Nat) (S : Schedule) : Nat :=
  M.teamSeasonGames t
    + S.games.countP (fun g => g.teamA == t || g.teamB == t)

/-- `random.choice` on a team list. -/
def chooseTeamFrom (rnd : Nat → Nat) (k : Nat) (l : List Team) : Team :=
  l.getD (rnd k % l.length) dummyTeam

/-- `Phase2Greedy._select_next_team_fairly`: among non-excluded teams
under the weekly limit, pick uniformly among those of minimal total game
count. -/
def selectNextTeamFairly (M : Model) (rnd : Nat → Nat) (mx : Nat)
    (teams : List Team) (S : Schedule) (w : Nat) (att : List Nat)
    (k : Nat) : Option Team × Nat :=
  let eligible := teams.filter (fun t =>
    !(att.contains t.teamId)
      && decide ((S.getTeamGamesInWeek t.teamId w).length < mx))
  match eligible with
  | [] => (none, k)
  | e :: es =>
      let minCount := (es.map (fun t => getTotalGameCount M t.teamId S)).foldl
        min (getTotalGameCount M e.teamId S)
      let candidates := eligible.filter (fun t =>
        getTotalGameCount M t.teamId S == minCount)
      (some (chooseTeamFrom rnd k candidates), k + 1)

/-- `Phase2Greedy._find_similar_strength_opponents`: division peers under
the weekly limit, stably sorted by distance to the focal strength. -/
def findSimilarStrengthOpponents (M : Model) (mx : Nat) (focal : Team)
    (teams : List Team) (S : Schedule) (w : Nat) : List Team :=
  let fs := phase2Strength M focal
  let cands := teams.filter (fun t =>
    t.teamId != focal.teamId
      && decide ((S.getTeamGamesInWeek t.teamId w).length < mx))
  cands.insertionSort (fun a b =>
    (phase2Strength M a - fs).natAbs ≤ (phase2Strength M b - fs).natAbs)

/-- `Phase2Greedy._try_to_find_game` — a verbatim duplicate of Phase 1B's
`_try_to_find_game` in the source (same 6-tier cascade). -/
def phase2TryToFindGame (M : Model) (rnd : Nat → Nat) (S : Schedule)
    (a b w k : Nat) : Option Game × Nat :=
  phase1bTryToFindGame M rnd S a b w k

/-- Pass 1 of the generator body (avoid recent opponents). -/
def phase2GenPass1 (M : Model) (rnd : Nat → Nat) (S : Schedule) (w : Nat)
    (fid : Nat) : List Team → Nat → Option Game × Nat
  | [], k => (none, k)
  | o :: os, k =>
      if playedRecently M S fid o.teamId w 3 then
        phase2GenPass1 M rnd S w fid os k
      else
        match phase2TryToFindGame M rnd S fid o.teamId w k with
        | (some g, k') => (some g, k')
        | (none, k') => phase2GenPass1 M rnd S w fid os k'

/-- Pass 2 of the generator body (any opponent). -/
def phase2GenPass2 (M : Model) (rnd : Nat → Nat) (S : Schedule) (w : Nat)
    (fid : Nat) : List Team → Nat → Option Game × Nat
  | [], k => (none, k)
  | o :: os, k =>
      match phase2TryToFindGame M rnd S fid o.teamId w k with
      | (some g, k') => (some g, k')
      | (none, k') => phase2GenPass2 M rnd S w fid os k'

/-- One resumption of `Phase2Greedy._division_game_generator`: repeatedly
select a focal team fairly; yield a game, or record the team as attempted
and continue; stop when no team is selectable.  The generator's suspended
state is exactly its `attempted_teams` set (returned updated).  `fuel`
bounds the inner loop; `attempted` grows at every non-yielding iteration,
so `teams.length + 1` iterations reproduce the Python loop. -/
def phase2GenNext (M : Model) (rnd : Nat → Nat) (mx d w : Nat) :
    Nat → List Nat → Schedule → Nat → Option Game × List Nat × Nat
  | 0, att, _, k => (none, att, k)
  | fuel + 1, att, S, k =>
      let teams := M.teamsByDivision d
      if teams.isEmpty then (none, att, k)
      else
        match selectNextTeamFairly M rnd mx teams S w att k with
        | (none, k') => (none, att, k')
        | (some focal, k') =>
            let opps := findSimilarStrengthOpponents M mx focal teams S w
            if opps.isEmpty then
              phase2GenNext M rnd mx d w fuel (att ++ [focal.teamId]) S k'
            else
              match phase2GenPass1 M rnd S w focal.teamId opps k' with
              | (some g, k'') => (some g, att, k'')
              | (none, k1) =>
                  match phase2GenPass2 M rnd S w focal.teamId opps k1 with
                  | (some g, k'') => (some g, att, k'')
                  | (none, k2) =>
                      phase2GenNext M rnd mx d w fuel
                        (att ++ [focal.teamId]) S k2

/-- The `division_generators` dictionary: per `(division, week)` the
suspended generator state (its attempted-team set). -/
abbrev GenMap := List ((Nat × Nat) × List Nat)

def genLookup (gens : GenMap) (key : Nat × Nat) : Option (List Nat) :=
  (gens.find? (fun e => e.1 == key)).map (·.2)

def genSet (gens : GenMap) (key : Nat × Nat) (v : List Nat) : GenMap :=
  if (gens.find? (fun e => e.1 == key)).isSome then
    gens.map (fun e => if e.1 == key then (key, v) else e)
  else gens ++ [(key, v)]

def genRemove (gens : GenMap) (key : Nat × Nat) : GenMap :=
  gens.filter (fun e => e.1 != key)

/-- `Phase2Greedy._find_next_game_for_division`: create the generator if
missing, pull the next game, and drop the generator on exhaustion. -/
def phase2FindNext (M : Model) (rnd : Nat → Nat) (mx : Nat)
    (gens : GenMap) (d w : Nat) (S : Schedule) (k : Nat) :
    Option Game × GenMap × Nat :=
  let att := (genLookup gens (d, w)).getD []
  let fuel := (M.teamsByDivision d).length + 1
  match phase2GenNext M rnd mx d w fuel att S k with
  | (some g, att', k') => (some g, genSet gens (d, w) att', k')
  | (none, _, k') => (none, genRemove gens (d, w), k')

/-- One Phase 2 round over the divisions; the final component counts the
games committed this round. -/
def phase2Round (M : Model) (rnd : Nat → Nat) (mx w : Nat) :
    List Nat → Schedule → GenMap → Nat → Nat →
      Schedule × GenMap × Nat × Nat
  | [], S, gens, k, cnt => (S, gens, k, cnt)
  | d :: ds, S, gens, k, cnt =>
      match phase2FindNext M rnd mx gens d w S k with
      | (some g, gens', k') =>
          match addGame M mx S g with
          | (true, S') => phase2Round M rnd mx w ds S' gens' k' (cnt + 1)
          | (false, S') => phase2Round M rnd mx w ds S' gens' k' cnt
      | (none, gens', k') => phase2Round M rnd mx w ds S gens' k' cnt

/-- The round-robin loop of `Phase2Greedy.schedule`
(`while consecutive_empty_rounds < 2 * len(divisions)`); `fuel` bounds
the rounds, every productive round consumes a fresh TSL, so the chosen
fuel reproduces the Python loop. -/
def phase2Loop (M : Model) (rnd : Nat → Nat) (mx w : Nat) :
    Nat → Nat → Schedule → GenMap → Nat → Schedule × Nat
  | 0, _, S, _, k => (S, k)
  | fuel + 1, consecEmpty, S, gens, k =>
      if 2 * M.divisionIds.length ≤ consecEmpty then (S, k)
      else
        match phase2Round M rnd mx w M.divisionIds S gens k 0 with
        | (S', gens', k', cnt) =>
            if cnt = 0 then
              phase2Loop M rnd mx w fuel (consecEmpty + 1) S' gens' k'
            else phase2Loop M rnd mx w fuel 0 S' gens' k'

/-- `Phase2Greedy._teams_played_this_week`
(`{teamA, teamB} == {t1, t2}` over this week's games). -/
def teamsPlayedThisWeek (M : Model) (a b : Nat) (S : Schedule) (w : Nat) :
    Bool :=
  (getGamesForWeek M S w).any (fun g => involvesBothSched g a b)

/-- `Phase2Greedy._team_has_game_on_date` (date objects are always
truthy, so the `if game_date:` guard is folded away). -/
def teamHasGameOnDate (t : Nat) (d : Int) (S : Schedule) : Bool :=
  S.games.any (fun g => (g.teamA == t || g.teamB == t) && g.date == d)

/-- The game dictionary built by `_exhaustive_final_check`. -/
def finalCheckGame (d : Nat) (t1 t2 : Team) (tsl : Tsl) : Game :=
  { teamA := t1.teamId, teamB := t2.teamId, divisionId := d
    timeslotId := tsl.timeslotId, locationId := tsl.locationId
    tslId := tsl.tslId, date := tsl.date, modifier := tsl.modifier }

/-- The TSL scan of `_exhaustive_final_check` for one pair: the first
TSL passing all checks whose `add_game` succeeds ends the scan. -/
def finalCheckTslScan (M : Model) (mx d w : Nat) (t1 t2 : Team) :
    List Tsl → Schedule → Schedule
  | [], S => S
  | tsl :: rest, S =>
      let ok :=
        (match M.weekOf tsl.timeslotId with
         | some tw => tw == w
         | none => false)
        && (M.teamAvail t1.teamId).contains tsl.timeslotId
        && (M.teamAvail t2.teamId).contains tsl.timeslotId
        && !(S.isTslUsed tsl.tslId)
        && !(teamHasGameOnDate t1.teamId tsl.date S)
        && !(teamHasGameOnDate t2.teamId tsl.date S)
      if ok then
        match addGame M mx S (finalCheckGame d t1 t2 tsl) with
        | (true, S') => S'
        | (false, S') => finalCheckTslScan M mx d w t1 t2 rest S'
      else finalCheckTslScan M mx d w t1 t2 rest S

/-- One pair of `_exhaustive_final_check`. -/
def finalCheckPair (M : Model) (mx d w : Nat) (t1 t2 : Team)
    (S : Schedule) : Schedule :=
  if teamsPlayedThisWeek M t1.teamId t2.teamId S w then S
  else if mx ≤ (S.getTeamGamesInWeek t1.teamId w).length
      ∨ mx ≤ (S.getTeamGamesInWeek t2.teamId w).length then S
  else if ¬ (M.teamAvail t1.teamId).any
      (fun ts => (M.teamAvail t2.teamId).contains ts) then S
  else finalCheckTslScan M mx d w t1 t2 M.tsls S

/-- The inner pair loop (`for team2 in teams_in_division[i+1:]`). -/
def finalCheckPairLoop (M : Model) (mx d w : Nat) (t1 : Team) :
    List Team → Schedule → Schedule
  | [], S => S
  | t2 :: rest, S =>
      finalCheckPairLoop M mx d w t1 rest (finalCheckPair M mx d w t1 t2 S)

/-- The outer team loop (`for i, team1 in enumerate(...)`). -/
def finalCheckTeamsLoop (M : Model) (mx d w : Nat) :
    List Team → Schedule → Schedule
  | [], S => S
  | t1 :: rest, S =>
      finalCheckTeamsLoop M mx d w rest (finalCheckPairLoop M mx d w t1 rest S)

/-- `Phase2Greedy._exhaustive_final_check`. -/
def exhaustiveFinalCheck (M : Model) (mx w : Nat) (S : Schedule) :
    Schedule :=
  M.divisionIds.foldl
    (fun S d =>
      let teams := M.teamsByDivision d
      if teams.length < 2 then S
      else finalCheckTeamsLoop M mx d w teams S)
    S

/-- `Phase2Greedy.schedule`: the round-robin loop followed by the
exhaustive final check (the per-week generator dictionary starts empty in
each call and is cleared at the end, so it is local here). -/
def phase2Schedule (M : Model) (rnd : Nat → Nat) (mx : Nat)
    (S : Schedule) (k w : Nat) : Schedule × Nat :=
  let fuel := (2 * M.divisionIds.length + 1) * (M.tsls.length + 1) + 1
  let r := phase2Loop M rnd mx w fuel 0 S [] k
  (exhaustiveFinalCheck M mx w r.1, r.2)

/-! ## Candidate games and the controller (`controller.py`,
`data_model.py`, `true_multi_phase_scheduler.py`) -/

/-- A candidate game from `FeasibleGameGenerator.generate`: one per
feasible same-division pair, carrying all viable TSLs (the generator
always stores a nonempty `available_tsls` key, so the `[game]` fallback of
`game.get('available_tsls', [game])` is not taken). -/
structure CandGame where
  teamA : Nat
  teamB : Nat
  divisionId : Nat
  availableTsls : List Tsl
  deriving DecidableEq, Repr

/-- The week a candidate is assigned to by `_group_games_by_week`
(`controller.py`) and by `TrueMultiPhaseScheduler.schedule` (identical
code): the week of the FIRST TSL of `available_tsls`, provided that TSL's
timeslot id is truthy and present in `week_mapping`; otherwise none. -/
def candWeek (M : Model) (c : CandGame) : Option Nat :=
  match c.availableTsls with
  | [] => none
  | t :: _ => if t.timeslotId ≠ 0 then M.weekOf t.timeslotId else none

/-- The bucket `games_by_week[w]` built by `_group_games_by_week`. -/
def weekBucket (M : Model) (cands : List CandGame) (w : Nat) :
    List CandGame :=
  cands.filter (fun c => candWeek M c == some w)

/-- `sorted(games_by_week.keys())`. -/
def controllerWeeks (M : Model) (cands : List CandGame) : List Nat :=
  ((cands.filterMap (candWeek M)).dedup).insertionSort (· ≤ ·)

/-- `stop_after_phase` values recognised by the controller. -/
inductive StopPhase where
  | pA
  | pB
  | pC
  | p2
  deriving DecidableEq, Repr

/-- A phase object as the controller sees it: it maps (schedule,
RNG cursor), the week's candidate games and the week number to the
updated (schedule, cursor).  (All four concrete phases ignore the
candidate list and the timeout, so the timeout argument is dropped.) -/
abbrev PhaseFun := Schedule × Nat → List CandGame → Nat → Schedule × Nat

/-- `MultiPhaseController._should_stop_after_week`: constantly `False`
(its docstring: the controller never stops early between weeks). -/
def shouldStopAfterWeek : Bool := false

/-- `MultiPhaseController._schedule_week`: run the phases in order,
returning early after the phase named by `stop_after_phase`. -/
def scheduleWeek (p1a p1b p1c p2 : PhaseFun) (stop : Option StopPhase)
    (s : Schedule × Nat) (wg : List CandGame) (w : Nat) :
    Schedule × Nat :=
  let s1 := p1a s wg w
  if stop = some StopPhase.pA then s1
  else
    let s2 := p1b s1 wg w
    if stop = some StopPhase.pB then s2
    else
      let s3 := p1c s2 wg w
      if stop = some StopPhase.pC then s3
      else p2 s3 wg w

/-- The `for week_num in all_weeks` loop of
`MultiPhaseController.schedule`, including the (never-taken) early-break
check. -/
def controllerWeekLoop (M : Model) (p1a p1b p1c p2 : PhaseFun)
    (stop : Option StopPhase) (cands : List CandGame) :
    List Nat → Schedule × Nat → Schedule × Nat
  | [], s => s
  | w :: ws, s =>
      let s' := scheduleWeek p1a p1b p1c p2 stop s (weekBucket M cands w) w
      if stop.isSome && shouldStopAfterWeek then s'
      else controllerWeekLoop M p1a p1b p1c p2 stop cands ws s'

/-- `MultiPhaseController.schedule`: `RuntimeError` on an empty candidate
list is modelled as `Except.error`; an empty week grouping returns `[]`.
The per-phase timeout computation (`_calculate_phase_timeouts`) only
produces the ignored timeout arguments and is dropped. -/
def controllerSchedule (M : Model) (p1a p1b p1c p2 : PhaseFun)
    (stop : Option StopPhase) (cands : List CandGame) :
    Except Unit (List Game) :=
  if cands.isEmpty then Except.error ()
  else
    let wks := controllerWeeks M cands
    if wks.isEmpty then Except.ok []
    else
      Except.ok
        (controllerWeekLoop M p1a p1b p1c p2 stop cands wks
          (Schedule.empty, 0)).1.games

/-- The controller's Phase 1A object (`self.phase_1a`). -/
def phase1A (M : Model) (rnd : Nat → Nat) (mx : Nat) : PhaseFun :=
  fun s _wg w => phase1aSchedule M rnd mx s.1 s.2 w

/-- The controller's Phase 1B object (`self.phase_1b`). -/
def phase1B (M : Model) (rnd : Nat → Nat) (mx : Nat) : PhaseFun :=
  fun s _wg w => phase1bSchedule M rnd mx s.1 s.2 w

/-- The controller's Phase 1C object (`self.phase_1c`). -/
def phase1C (M : Model) (rnd : Nat → Nat) (mx : Nat) : PhaseFun :=
  fun s _wg w => phase1cSchedule M rnd mx s.1 s.2 w

/-- The controller's Phase 2 object (`self.phase_2`). -/
def phase2 (M : Model) (rnd : Nat → Nat) (mx : Nat) : PhaseFun :=
  fun s _wg w => phase2Schedule M rnd mx s.1 s.2 w

/-- `MultiPhaseController.schedule` with the four phases the constructor
installs. -/
def controllerScheduleFull (M : Model) (rnd : Nat → Nat) (mx : Nat)
    (stop : Option StopPhase) (cands : List CandGame) :
    Except Unit (List Game) :=
  controllerSchedule M (phase1A M rnd mx) (phase1B M rnd mx)
    (phase1C M rnd mx) (phase2 M rnd mx) stop cands

/-! ## Schedule well-formedness and reachability -/

/-- Membership predicate for the team-day index: the games of team `t`
whose (truthy, day-mapped) timeslot falls on day `d`. -/
def onDay (M : Model) (t : Nat) (d : Int) (g : Game) : Bool :=
  (g.teamA == t || g.teamB == t) && g.timeslotId != 0
    && M.dayOf g.timeslotId == some d

/-- Membership predicate for the team-week index: the games of team `t`
whose (truthy, week-mapped) timeslot falls in week `w`. -/
def inWeek (M : Model) (t : Nat) (w : Nat) (g : Game) : Bool :=
  (g.teamA == t || g.teamB == t) && g.timeslotId != 0
    && M.weekOf g.timeslotId == some w

/-- The representation invariant of `Schedule` together with the hard
constraints it maintains: the indexes agree with the games list, no
truthy TSL id is shared by two games, the weekly and daily caps hold for
mapped timeslots, committed games with truthy team ids are
intra-division, and no game pairs a team with itself. -/
structure WF (M : Model) (mx : Nat) (S : Schedule) : Prop where
  usedIff : ∀ t, S.usedTsls t = (S.byTsl t).isSome
  tslSound : ∀ t g, S.byTsl t = some g → g ∈ S.games ∧ g.tslId = t ∧ t ≠ 0
  tslComplete : ∀ g ∈ S.games, g.tslId ≠ 0 → S.byTsl g.tslId = some g
  dayEq : ∀ t d, S.byTeamDay (t, d) = S.games.filter (onDay M t d)
  weekEq : ∀ t w, S.byTeamWeek (t, w) = S.games.filter (inWeek M t w)
  tslUnique : S.games.Pairwise (fun a b => a.tslId = b.tslId → a.tslId = 0)
  weekCap : ∀ t w, (S.games.filter (inWeek M t w)).length ≤ mx
  dayCap : ∀ t d, (S.games.filter (onDay M t d)).length ≤ 1
  sameDiv : ∀ g ∈ S.games, g.teamA ≠ 0 → g.teamB ≠ 0 →
    M.teamDivision g.teamA = M.teamDivision g.teamB
  noSelf : ∀ g ∈ S.games, g.teamA ≠ g.teamB

/-- Schedules reachable from the empty schedule by `add_game`/`remove_game`
calls. -/
inductive Reachable (M : Model) (mx : Nat) : Schedule → Prop where
  | empty : Reachable M mx Schedule.empty
  | add (S : Schedule) (g : Game) :
      Reachable M mx S → Reachable M mx (addGame M mx S g).2
  | remove (S : Schedule) (g : Game) :
      Reachable M mx S → Reachable M mx (removeGame M S g).2

/-! ## Concrete instances used by the counterexamples and witnesses -/

/-- The constant-zero index stream: every `random.choice` takes the first
element of its tier. -/
def rnd0 : Nat → Nat := fun _ => 0

/-- A model whose `team_lookup` holds a team with id `0` (division 10)
and a team with id `5` (division 20); no timeslots or history. -/
def c1M : Model where
  divisionIds := [10, 20]
  teams := [⟨0, 10, none, 0⟩, ⟨5, 20, none, 0⟩]
  tsls := []
  prevGames := []
  weekEntries := []
  dayEntries := []
  teamAvail := fun _ => []
  divisionPreferredLocations := fun _ => []

/-- A cross-division game whose `teamA` id is `0` (falsy). -/
def c1g : Game :=
  { teamA := 0, teamB := 5, divisionId := 10, timeslotId := 0
    locationId := 0, tslId := 0, date := 0, modifier := 0 }

/-- A self-play game: `add_game` rejects it on any schedule. -/
def c2g : Game :=
  { teamA := 5, teamB := 5, divisionId := 20, timeslotId := 0
    locationId := 0, tslId := 0, date := 0, modifier := 0 }

/-- Six teams in one division, two TSLs (ids 1, 2) on unmapped
timeslots 10 and 11. -/
def c3M : Model where
  divisionIds := [1]
  teams := [⟨1, 1, none, 0⟩, ⟨2, 1, none, 0⟩, ⟨3, 1, none, 0⟩,
    ⟨4, 1, none, 0⟩, ⟨5, 1, none, 0⟩, ⟨6, 1, none, 0⟩]
  tsls := [⟨1, 10, 1, 0, 0⟩, ⟨2, 11, 1, 1, 0⟩]
  prevGames := []
  weekEntries := []
  dayEntries := []
  teamAvail := fun _ => []
  divisionPreferredLocations := fun _ => []

def c3orig : Game :=
  { teamA := 1, teamB := 2, divisionId := 1, timeslotId := 10
    locationId := 1, tslId := 1, date := 0, modifier := 0 }

def c3other : Game :=
  { teamA := 3, teamB := 4, divisionId := 1, timeslotId := 11
    locationId := 1, tslId := 2, date := 1, modifier := 0 }

/-- `c3orig` with the displaced team 1 replaced by team 5. -/
def c3mod : Game :=
  { teamA := 5, teamB := 2, divisionId := 1, timeslotId := 10
    locationId := 1, tslId := 1, date := 0, modifier := 0 }

/-- Replacement game for displaced team 1, bound to the TSL already used
by `c3other` (so its `add_game` fails). -/
def c3new : Game :=
  { teamA := 1, teamB := 6, divisionId := 1, timeslotId := 11
    locationId := 1, tslId := 2, date := 1, modifier := 0 }

/-- The schedule `[c3orig, c3other]`. -/
def c3S : Schedule :=
  (addGame c3M 2 (addGame c3M 2 Schedule.empty c3orig).2 c3other).2

/-- Four teams in one division; no mapped timeslots. -/
def c4M : Model where
  divisionIds := [1]
  teams := [⟨1, 1, none, 0⟩, ⟨2, 1, none, 0⟩, ⟨3, 1, none, 0⟩,
    ⟨4, 1, none, 0⟩]
  tsls := []
  prevGames := []
  weekEntries := []
  dayEntries := []
  teamAvail := fun _ => []
  divisionPreferredLocations := fun _ => []

/-- A game with falsy `tsl_id` and `timeslot_id`: it can be committed
twice. -/
def c4g : Game :=
  { teamA := 1, teamB := 2, divisionId := 1, timeslotId := 0
    locationId := 0, tslId := 0, date := 0, modifier := 0 }

def c4h : Game :=
  { teamA := 3, teamB := 4, divisionId := 1, timeslotId := 0
    locationId := 0, tslId := 0, date := 0, modifier := 0 }

/-- The schedule `[c4g, c4h]`. -/
def c4S : Schedule :=
  (addGame c4M 2 (addGame c4M 2 Schedule.empty c4g).2 c4h).2

/-- Two divisions with two teams each; division 1 is only available in
week 0 (timeslot 1 / TSL 1), division 2 only in week 1
(timeslot 2 / TSL 2). -/
def c5M : Model where
  divisionIds := [1, 2]
  teams := [⟨1, 1, none, 0⟩, ⟨2, 1, none, 0⟩, ⟨3, 2, none, 0⟩,
    ⟨4, 2, none, 0⟩]
  tsls := [⟨1, 1, 1, 0, 0⟩, ⟨2, 2, 1, 7, 0⟩]
  prevGames := []
  weekEntries := [⟨1, 0, 0⟩, ⟨2, 1, 7⟩]
  dayEntries := [(1, 0), (2, 7)]
  teamAvail := fun t =>
    if t = 1 ∨ t = 2 then [1] else if t = 3 ∨ t = 4 then [2] else []
  divisionPreferredLocations := fun _ => []

/-- Candidate games: the division-1 pair grouped into week 0, the
division-2 pair into week 1. -/
def c5cands : List CandGame :=
  [⟨1, 2, 1, [⟨1, 1, 1, 0, 0⟩]⟩, ⟨3, 4, 2, [⟨2, 2, 1, 7, 0⟩]⟩]

/-- The week-0 game the controller commits in the `c5M` run. -/
def c5g1 : Game :=
  { teamA := 1, teamB := 2, divisionId := 1, timeslotId := 1
    locationId := 1, tslId := 1, date := 0, modifier := 0 }

/-- The week-1 game the controller commits in the `c5M` run even with
`stop_after_phase = '1A'`. -/
def c5g2 : Game :=
  { teamA := 3, teamB := 4, divisionId := 2, timeslotId := 2
    locationId := 1, tslId := 2, date := 7, modifier := 0 }

/-- A second index stream (used to show RNG-independence of concrete
runs). -/
def rnd1 : Nat → Nat := fun _ => 1

/-- Two teams in one division.  Team 2 is stronger (rank 1 and two
historical wins) but has played 2 season games; team 1 (rank 5) has
played none. -/
def c6M : Model where
  divisionIds := [1]
  teams := [⟨1, 1, some 5, 0⟩, ⟨2, 1, some 1, 0⟩]
  tsls := [⟨1, 1, 1, 0, 0⟩]
  prevGames := [⟨2, 3, some 10, some 0, some (-20)⟩,
    ⟨2, 3, some 10, some 0, some (-13)⟩]
  weekEntries := [⟨1, 0, 0⟩]
  dayEntries := [(1, 0)]
  teamAvail := fun t => if t = 1 ∨ t = 2 then [1] else []
  divisionPreferredLocations := fun _ => []

/-- Team 1 prefers location 1.  TSL 1 sits at location 1 on a
non-Sunday; TSL 2 sits at location 2 on a Sunday (day 6). -/
def c7M : Model where
  divisionIds := [1]
  teams := [⟨1, 1, none, 1⟩, ⟨2, 1, none, 0⟩]
  tsls := [⟨1, 1, 1, 0, 0⟩, ⟨2, 2, 2, 6, 0⟩]
  prevGames := []
  weekEntries := [⟨1, 0, 0⟩, ⟨2, 0, 0⟩]
  dayEntries := [(1, 0), (2, 6)]
  teamAvail := fun t => if t = 1 ∨ t = 2 then [1, 2] else []
  divisionPreferredLocations := fun _ => []

def c7tslPref : Tsl := ⟨1, 1, 1, 0, 0⟩

def c7tslSun : Tsl := ⟨2, 2, 2, 6, 0⟩

/-- A team with prior rank 1 and two historical wins spread over more
than 3 weeks (dates 0 and 28). -/
def c8M : Model where
  divisionIds := [1]
  teams := [⟨1, 1, some 1, 0⟩, ⟨2, 1, none, 0⟩]
  tsls := []
  prevGames := [⟨1, 2, some 10, some 0, some 0⟩,
    ⟨1, 2, some 10, some 0, some 28⟩]
  weekEntries := []
  dayEntries := []
  teamAvail := fun _ => []
  divisionPreferredLocations := fun _ => []

def c8tm : Team := ⟨1, 1, some 1, 0⟩

/-- Week mapping knows only timeslot 2 (week 0); timeslot 9 is
unmapped. -/
def c9M : Model where
  divisionIds := [1]
  teams := [⟨1, 1, none, 0⟩, ⟨2, 1, none, 0⟩]
  tsls := [⟨1, 9, 1, 0, 0⟩, ⟨2, 2, 1, 0, 0⟩]
  prevGames := []
  weekEntries := [⟨2, 0, 0⟩]
  dayEntries := []
  teamAvail := fun _ => []
  divisionPreferredLocations := fun _ => []

/-- A candidate whose FIRST TSL has the unmapped timeslot 9, while its
second TSL maps to week 0. -/
def c9cand : CandGame := ⟨1, 2, 1, [⟨1, 9, 1, 0, 0⟩, ⟨2, 2, 1, 0, 0⟩]⟩

/-- Timeslot 50 is in no day or week mapping; team ids and TSL ids are
truthy. -/
def c10M : Model where
  divisionIds := [1]
  teams := [⟨1, 1, none, 0⟩, ⟨2, 1, none, 0⟩, ⟨3, 1, none, 0⟩]
  tsls := []
  prevGames := []
  weekEntries := []
  dayEntries := []
  teamAvail := fun _ => []
  divisionPreferredLocations := fun _ => []

def c10g1 : Game :=
  { teamA := 1, teamB := 2, divisionId := 1, timeslotId := 50
    locationId := 1, tslId := 7, date := 3, modifier := 0 }

def c10g2 : Game :=
  { teamA := 1, teamB := 3, divisionId := 1, timeslotId := 50
    locationId := 1, tslId := 8, date := 3, modifier := 0 }

/-! ## Characterisation of the schedule operations -/

theorem checkConstraints_eq_nil (M : Model) (mx : Nat) (S : Schedule)
    (g : Game) :
    checkConstraints M mx S g = [] ↔
      S.byTsl g.tslId = none ∧
      (g.timeslotId ≠ 0 → ∀ d, M.dayOf g.timeslotId = some d →
        S.byTeamDay (g.teamA, d) = [] ∧ S.byTeamDay (g.teamB, d) = []) ∧
      (g.timeslotId ≠ 0 → ∀ w, M.weekOf g.timeslotId = some w →
        (S.byTeamWeek (g.teamA, w)).length < mx ∧
        (S.byTeamWeek (g.teamB, w)).length < mx) ∧
      (g.teamA ≠ 0 → g.teamB ≠ 0 →
        M.teamDivision g.teamA = M.teamDivision g.teamB) ∧
      g.teamA ≠ g.teamB := by
  unfold checkConstraints
  by_cases hts : g.timeslotId = 0
  · rcases hb : S.byTsl g.tslId with _ | gb <;> simp [hts, hb]
  · rcases hb : S.byTsl g.tslId with _ | gb <;>
    rcases hd : M.dayOf g.timeslotId with _ | d <;>
    rcases hw : M.weekOf g.timeslotId with _ | w <;>
      simp [hts, hb, hd, hw] <;>
      by_cases h4 : g.teamA ≠ 0 ∧ g.teamB ≠ 0 <;>
      by_cases h5 : g.teamA = g.teamB <;>
      simp_all <;> tauto

theorem uia_games (M : Model) (S : Schedule) (g : Game) :
    (updateIndexesAdd M S g).games = S.games := by
  unfold updateIndexesAdd
  by_cases h1 : g.tslId = 0 <;> by_cases h2 : g.timeslotId = 0 <;>
  rcases hd : M.dayOf g.timeslotId with _ | d <;>
  rcases hw : M.weekOf g.timeslotId with _ | w <;>
  simp [h1, h2, hd, hw]

theorem uia_byTsl (M : Model) (S : Schedule) (g : Game) (t : Nat) :
    (updateIndexesAdd M S g).byTsl t =
      if g.tslId ≠ 0 ∧ t = g.tslId then some g else S.byTsl t := by
  unfold updateIndexesAdd
  by_cases h1 : g.tslId = 0 <;> by_cases h2 : g.timeslotId = 0 <;>
  rcases hd : M.dayOf g.timeslotId with _ | d <;>
  rcases hw : M.weekOf g.timeslotId with _ | w <;>
  by_cases h3 : t = g.tslId <;>
  simp [h1, h2, h3, hd, hw]

theorem uia_used (M : Model) (S : Schedule) (g : Game) (t : Nat) :
    (updateIndexesAdd M S g).usedTsls t =
      if g.tslId ≠ 0 ∧ t = g.tslId then true else S.usedTsls t := by
  unfold updateIndexesAdd
  by_cases h1 : g.tslId = 0 <;> by_cases h2 : g.timeslotId = 0 <;>
  rcases hd : M.dayOf g.timeslotId with _ | d <;>
  rcases hw : M.weekOf g.timeslotId with _ | w <;>
  by_cases h3 : t = g.tslId <;>
  simp [h1, h2, h3, hd, hw]

theorem uia_day (M : Model) (S : Schedule) (g : Game) (t : Nat) (d : Int) :
    (updateIndexesAdd M S g).byTeamDay (t, d) =
      if g.timeslotId ≠ 0 ∧ M.dayOf g.timeslotId = some d
          ∧ (t = g.teamA ∨ t = g.teamB) then
        S.byTeamDay (t, d) ++ [g]
      else S.byTeamDay (t, d) := by
  unfold updateIndexesAdd
  by_cases h1 : g.tslId = 0 <;> by_cases h2 : g.timeslotId = 0 <;>
  rcases hd : M.dayOf g.timeslotId with _ | d' <;>
  rcases hw : M.weekOf g.timeslotId with _ | w <;>
  simp [h1, h2, hd, hw, Prod.ext_iff] <;>
  by_cases h3 : d' = d <;>
  by_cases h4 : t = g.teamA ∨ t = g.teamB <;>
  simp_all <;> tauto

theorem uia_week (M : Model) (S : Schedule) (g : Game) (t w : Nat) :
    (updateIndexesAdd M S g).byTeamWeek (t, w) =
      if g.timeslotId ≠ 0 ∧ M.weekOf g.timeslotId = some w
          ∧ (t = g.teamA ∨ t = g.teamB) then
        S.byTeamWeek (t, w) ++ [g]
      else S.byTeamWeek (t, w) := by
  unfold updateIndexesAdd
  by_cases h1 : g.tslId = 0 <;> by_cases h2 : g.timeslotId = 0 <;>
  rcases hd : M.dayOf g.timeslotId with _ | d' <;>
  rcases hw : M.weekOf g.timeslotId with _ | w' <;>
  simp [h1, h2, hd, hw, Prod.ext_iff] <;>
  by_cases h3 : w' = w <;>
  by_cases h4 : t = g.teamA ∨ t = g.teamB <;>
  simp_all <;> tauto

theorem uir_games (M : Model) (S : Schedule) (g : Game) :
    (updateIndexesRemove M S g).games = S.games := by
  unfold updateIndexesRemove
  by_cases h1 : g.tslId = 0 <;> by_cases h2 : g.timeslotId = 0 <;>
  rcases hd : M.dayOf g.timeslotId with _ | d <;>
  rcases hw : M.weekOf g.timeslotId with _ | w <;>
  simp [h1, h2, hd, hw]

theorem uir_byTsl (M : Model) (S : Schedule) (g : Game) (t : Nat) :
    (updateIndexesRemove M S g).byTsl t =
      if g.tslId ≠ 0 ∧ t = g.tslId then none else S.byTsl t := by
  unfold updateIndexesRemove
  by_cases h1 : g.tslId = 0 <;> by_cases h2 : g.timeslotId = 0 <;>
  rcases hd : M.dayOf g.timeslotId with _ | d <;>
  rcases hw : M.weekOf g.timeslotId with _ | w <;>
  by_cases h3 : t = g.tslId <;>
  simp [h1, h2, h3, hd, hw]

theorem uir_used (M : Model) (S : Schedule) (g : Game) (t : Nat) :
    (updateIndexesRemove M S g).usedTsls t =
      if g.tslId ≠ 0 ∧ t = g.tslId then false else S.usedTsls t := by
  unfold updateIndexesRemove
  by_cases h1 : g.tslId = 0 <;> by_cases h2 : g.timeslotId = 0 <;>
  rcases hd : M.dayOf g.timeslotId with _ | d <;>
  rcases hw : M.weekOf g.timeslotId with _ | w <;>
  by_cases h3 : t = g.tslId <;>
  simp [h1, h2, h3, hd, hw]

theorem uir_day (M : Model) (S : Schedule) (g : Game) (t : Nat) (d : Int) :
    (updateIndexesRemove M S g).byTeamDay (t, d) =
      if g.timeslotId ≠ 0 ∧ M.dayOf g.timeslotId = some d
          ∧ (t = g.teamA ∨ t = g.teamB) then
        (S.byTeamDay (t, d)).erase g
      else S.byTeamDay (t, d) := by
  unfold updateIndexesRemove
  by_cases h1 : g.tslId = 0 <;> by_cases h2 : g.timeslotId = 0 <;>
  rcases hd : M.dayOf g.timeslotId with _ | d' <;>
  rcases hw : M.weekOf g.timeslotId with _ | w <;>
  simp [h1, h2, hd, hw, Prod.ext_iff] <;>
  by_cases h3 : d' = d <;>
  by_cases h4 : t = g.teamA ∨ t = g.teamB <;>
  simp_all <;> tauto

theorem uir_week (M : Model) (S : Schedule) (g : Game) (t w : Nat) :
    (updateIndexesRemove M S g).byTeamWeek (t, w) =
      if g.timeslotId ≠ 0 ∧ M.weekOf g.timeslotId = some w
          ∧ (t = g.teamA ∨ t = g.teamB) then
        (S.byTeamWeek (t, w)).erase g
      else S.byTeamWeek (t, w) := by
  unfold updateIndexesRemove
  by_cases h1 : g.tslId = 0 <;> by_cases h2 : g.timeslotId = 0 <;>
  rcases hd : M.dayOf g.timeslotId with _ | d <;>
  rcases hw : M.weekOf g.timeslotId with _ | w' <;>
  simp [h1, h2, hd, hw, Prod.ext_iff] <;>
  by_cases h3 : w' = w <;>
  by_cases h4 : t = g.teamA ∨ t = g.teamB <;>
  simp_all <;> tauto

theorem addGame_true_iff (M : Model) (mx : Nat) (S : Schedule) (g : Game) :
    (addGame M mx S g).1 = true ↔ checkConstraints M mx S g = [] := by
  unfold addGame; split <;> simp_all

theorem addGame_snd_of_true (M : Model) (mx : Nat) (S : Schedule) (g : Game)
    (h : (addGame M mx S g).1 = true) :
    (addGame M mx S g).2 =
      updateIndexesAdd M { S with games := S.games ++ [g] } g := by
  unfold addGame at h ⊢; split at h <;> simp_all

theorem addGame_snd_of_false (M : Model) (mx : Nat) (S : Schedule)
    (g : Game) (h : (addGame M mx S g).1 = false) :
    (addGame M mx S g).2 = S := by
  unfold addGame at h ⊢; split at h <;> simp_all

theorem removeGame_true_iff (M : Model) (S : Schedule) (g : Game) :
    (removeGame M S g).1 = true ↔ g ∈ S.games := by
  unfold removeGame; split <;> simp_all

theorem removeGame_snd_of_mem (M : Model) (S : Schedule) (g : Game)
    (h : g ∈ S.games) :
    (removeGame M S g).2 =
      updateIndexesRemove M { S with games := S.games.erase g } g := by
  unfold removeGame; split <;> simp_all

theorem removeGame_snd_of_not_mem (M : Model) (S : Schedule) (g : Game)
    (h : g ∉ S.games) : (removeGame M S g).2 = S := by
  unfold removeGame; split <;> simp_all

theorem onDay_iff (M : Model) (t : Nat) (d : Int) (g : Game) :
    onDay M t d g = true ↔
      g.timeslotId ≠ 0 ∧ M.dayOf g.timeslotId = some d
        ∧ (t = g.teamA ∨ t = g.teamB) := by
  simp only [onDay, Bool.and_eq_true, Bool.or_eq_true, beq_iff_eq,
    bne_iff_ne, ne_eq]
  constructor
  · rintro ⟨⟨h1, h2⟩, h3⟩
    refine ⟨h2, h3, ?_⟩
    rcases h1 with h | h
    · exact Or.inl h.symm
    · exact Or.inr h.symm
  · rintro ⟨h2, h3, h1⟩
    refine ⟨⟨?_, h2⟩, h3⟩
    rcases h1 with h | h
    · exact Or.inl h.symm
    · exact Or.inr h.symm

theorem inWeek_iff (M : Model) (t w : Nat) (g : Game) :
    inWeek M t w g = true ↔
      g.timeslotId ≠ 0 ∧ M.weekOf g.timeslotId = some w
        ∧ (t = g.teamA ∨ t = g.teamB) := by
  simp only [inWeek, Bool.and_eq_true, Bool.or_eq_true, beq_iff_eq,
    bne_iff_ne, ne_eq]
  constructor
  · rintro ⟨⟨h1, h2⟩, h3⟩
    refine ⟨h2, h3, ?_⟩
    rcases h1 with h | h
    · exact Or.inl h.symm
    · exact Or.inr h.symm
  · rintro ⟨h2, h3, h1⟩
    refine ⟨⟨?_, h2⟩, h3⟩
    rcases h1 with h | h
    · exact Or.inl h.symm
    · exact Or.inr h.symm

/-! ## Preservation of well-formedness -/

theorem wf_empty (M : Model) (mx : Nat) : WF M mx Schedule.empty := by
  constructor <;> simp [Schedule.empty]

theorem wf_add (M : Model) (mx : Nat) (S : Schedule) (g : Game)
    (hwf : WF M mx S) (h : (addGame M mx S g).1 = true) :
    WF M mx (addGame M mx S g).2 := by
  have hc := (addGame_true_iff M mx S g).1 h
  rw [checkConstraints_eq_nil] at hc
  obtain ⟨c1, c2, c3, c4, c5⟩ := hc
  rw [addGame_snd_of_true M mx S g h]
  set Sr : Schedule := { S with games := S.games ++ [g] } with hSr
  have hgames : (updateIndexesAdd M Sr g).games = S.games ++ [g] := by
    rw [uia_games]
  constructor
  · intro t
    rw [uia_used, uia_byTsl]
    split
    · rfl
    · exact hwf.usedIff t
  · intro t g'' h''
    rw [uia_byTsl] at h''
    rw [hgames]
    split at h''
    · rename_i hcond
      cases h''
      exact ⟨List.mem_append_right _ (List.mem_singleton.2 rfl),
        hcond.2.symm, hcond.2 ▸ hcond.1⟩
    · obtain ⟨hm, he, hne⟩ := hwf.tslSound t g'' h''
      exact ⟨List.mem_append_left _ hm, he, hne⟩
  · intro g'' hmem hne
    rw [hgames] at hmem
    rw [uia_byTsl]
    rcases List.mem_append.1 hmem with hm | hm
    · have hold := hwf.tslComplete g'' hm hne
      rw [if_neg]
      · exact hold
      · rintro ⟨hg0, heq⟩
        rw [heq] at hold
        rw [c1] at hold
        cases hold
    · rw [List.mem_singleton] at hm
      subst hm
      rw [if_pos ⟨hne, rfl⟩]
  · intro t d
    rw [uia_day, hgames, List.filter_append]
    by_cases hcond : g.timeslotId ≠ 0 ∧ M.dayOf g.timeslotId = some d
        ∧ (t = g.teamA ∨ t = g.teamB)
    · rw [if_pos hcond, hwf.dayEq]
      have : List.filter (onDay M t d) [g] = [g] := by
        simp [List.filter, (onDay_iff M t d g).2 hcond]
      rw [this]
    · rw [if_neg hcond, hwf.dayEq]
      have : List.filter (onDay M t d) [g] = [] := by
        have : ¬ onDay M t d g = true := fun hh => hcond ((onDay_iff M t d g).1 hh)
        simp [List.filter, this]
      rw [this, List.append_nil]
  · intro t w
    rw [uia_week, hgames, List.filter_append]
    by_cases hcond : g.timeslotId ≠ 0 ∧ M.weekOf g.timeslotId = some w
        ∧ (t = g.teamA ∨ t = g.teamB)
    · rw [if_pos hcond, hwf.weekEq]
      have : List.filter (inWeek M t w) [g] = [g] := by
        simp [List.filter, (inWeek_iff M t w g).2 hcond]
      rw [this]
    · rw [if_neg hcond, hwf.weekEq]
      have : List.filter (inWeek M t w) [g] = [] := by
        have : ¬ inWeek M t w g = true := fun hh => hcond ((inWeek_iff M t w g).1 hh)
        simp [List.filter, this]
      rw [this, List.append_nil]
  · rw [hgames, List.pairwise_append]
    refine ⟨hwf.tslUnique, List.pairwise_singleton _ _, ?_⟩
    intro a ha b hb
    rw [List.mem_singleton] at hb
    subst hb
    intro heq
    by_contra h0
    have := hwf.tslComplete a ha h0
    rw [heq, c1] at this
    cases this
  · intro t w
    rw [hgames, List.filter_append]
    by_cases hg : inWeek M t w g = true
    · obtain ⟨hts, hwk, hteam⟩ := (inWeek_iff M t w g).1 hg
      have hlen := (c3 hts w hwk)
      have hfil : List.filter (inWeek M t w) [g] = [g] := by simp [List.filter, hg]
      rw [hfil, List.length_append, List.length_singleton]
      rcases hteam with hA | hA <;> subst hA
      · have := hlen.1
        rw [hwf.weekEq] at this
        omega
      · have := hlen.2
        rw [hwf.weekEq] at this
        omega
    · have hfil : List.filter (inWeek M t w) [g] = [] := by simp [List.filter, hg]
      rw [hfil, List.append_nil]
      exact hwf.weekCap t w
  · intro t d
    rw [hgames, List.filter_append]
    by_cases hg : onDay M t d g = true
    · obtain ⟨hts, hdy, hteam⟩ := (onDay_iff M t d g).1 hg
      have hemp := c2 hts d hdy
      have hfil : List.filter (onDay M t d) [g] = [g] := by simp [List.filter, hg]
      rw [hfil, List.length_append, List.length_singleton]
      rcases hteam with hA | hA <;> subst hA
      · have := hemp.1
        rw [hwf.dayEq] at this
        simp [this]
      · have := hemp.2
        rw [hwf.dayEq] at this
        simp [this]
    · have hfil : List.filter (onDay M t d) [g] = [] := by simp [List.filter, hg]
      rw [hfil, List.append_nil]
      exact hwf.dayCap t d
  · intro g'' hmem hA hB
    rw [hgames] at hmem
    rcases List.mem_append.1 hmem with hm | hm
    · exact hwf.sameDiv g'' hm hA hB
    · rw [List.mem_singleton] at hm
      subst hm
      exact c4 hA hB
  · intro g'' hmem
    rw [hgames] at hmem
    rcases List.mem_append.1 hmem with hm | hm
    · exact hwf.noSelf g'' hm
    · rw [List.mem_singleton] at hm
      subst hm
      exact c5

/-- In a well-formed schedule a second, distinct occurrence of a game
with a truthy TSL id can not exist. -/
theorem wf_no_dup_truthy_tsl (M : Model) (mx : Nat) (S : Schedule)
    (g : Game) (hwf : WF M mx S) (hg : g ∈ S.games) (hne : g.tslId ≠ 0) :
    g ∉ (S.games.erase g) := by
  intro hmem
  obtain ⟨l1, l2, hnl1, hsplit, herase⟩ := List.exists_erase_eq hg
  rw [herase] at hmem
  have hpw := hwf.tslUnique
  rw [hsplit, List.pairwise_append] at hpw
  rcases List.mem_append.1 hmem with hm | hm
  · exact hne (hpw.2.2 g hm g (List.mem_cons_self _ _) rfl)
  · have := (List.pairwise_cons.1 hpw.2.1).1 g hm rfl
    exact hne this

theorem wf_remove (M : Model) (S : Schedule) (g : Game) (mx : Nat)
    (hwf : WF M mx S) : WF M mx (removeGame M S g).2 := by
  by_cases hg : g ∈ S.games
  · rw [removeGame_snd_of_mem M S g hg]
    set Sr : Schedule := { S with games := S.games.erase g } with hSr
    have hgames : (updateIndexesRemove M Sr g).games = S.games.erase g := by
      rw [uir_games]
    constructor
    · intro t
      rw [uir_used, uir_byTsl]
      split
      · rfl
      · exact hwf.usedIff t
    · intro t g'' h''
      rw [uir_byTsl] at h''
      rw [hgames]
      split at h''
      · cases h''
      · rename_i hcond
        obtain ⟨hm, he, hne⟩ := hwf.tslSound t g'' h''
        refine ⟨?_, he, hne⟩
        by_cases hgg : g'' = g
        · subst hgg
          exfalso
          exact hcond ⟨he ▸ hne, he.symm⟩
        · exact (List.mem_erase_of_ne hgg).2 hm
    · intro g'' hmem hne
      rw [hgames] at hmem
      have hm : g'' ∈ S.games := List.erase_subset _ _ hmem
      have hold := hwf.tslComplete g'' hm hne
      rw [uir_byTsl]
      rw [if_neg]
      · exact hold
      · rintro ⟨hg0, heq⟩
        -- then g'' and g share the truthy TSL id g.tslId
        have hcg : S.byTsl g.tslId = some g :=
          hwf.tslComplete g hg hg0
        rw [heq] at hold
        rw [hold] at hcg
        injection hcg with hgg
        subst hgg
        exact wf_no_dup_truthy_tsl M mx S g'' hwf hm hne hmem
    · intro t d
      rw [uir_day, hgames]
      have hfe : (S.games.erase g).filter (onDay M t d)
          = (S.games.filter (onDay M t d)).erase g :=
        (List.erase_filter (onDay M t d) S.games).symm
      by_cases hcond : g.timeslotId ≠ 0 ∧ M.dayOf g.timeslotId = some d
          ∧ (t = g.teamA ∨ t = g.teamB)
      · rw [if_pos hcond, hwf.dayEq, hfe]
      · rw [if_neg hcond, hwf.dayEq, hfe]
        have hnm : g ∉ S.games.filter (onDay M t d) := by
          intro hmm
          exact hcond ((onDay_iff M t d g).1 (List.of_mem_filter hmm))
        rw [List.erase_of_not_mem hnm]
    · intro t w
      rw [uir_week, hgames]
      have hfe : (S.games.erase g).filter (inWeek M t w)
          = (S.games.filter (inWeek M t w)).erase g :=
        (List.erase_filter (inWeek M t w) S.games).symm
      by_cases hcond : g.timeslotId ≠ 0 ∧ M.weekOf g.timeslotId = some w
          ∧ (t = g.teamA ∨ t = g.teamB)
      · rw [if_pos hcond, hwf.weekEq, hfe]
      · rw [if_neg hcond, hwf.weekEq, hfe]
        have hnm : g ∉ S.games.filter (inWeek M t w) := by
          intro hmm
          exact hcond ((inWeek_iff M t w g).1 (List.of_mem_filter hmm))
        rw [List.erase_of_not_mem hnm]
    · rw [hgames]
      exact hwf.tslUnique.sublist (List.erase_sublist g S.games)
    · intro t w
      rw [hgames]
      calc ((S.games.erase g).filter (inWeek M t w)).length
          = ((S.games.filter (inWeek M t w)).erase g).length := by
            rw [List.erase_filter]
        _ ≤ (S.games.filter (inWeek M t w)).length :=
            List.length_erase_le _ _
        _ ≤ mx := hwf.weekCap t w
    · intro t d
      rw [hgames]
      calc ((S.games.erase g).filter (onDay M t d)).length
          = ((S.games.filter (onDay M t d)).erase g).length := by
            rw [List.erase_filter]
        _ ≤ (S.games.filter (onDay M t d)).length :=
            List.length_erase_le _ _
        _ ≤ 1 := hwf.dayCap t d
    · intro g'' hmem hA hB
      rw [hgames] at hmem
      exact hwf.sameDiv g'' (List.erase_subset _ _ hmem) hA hB
    · intro g'' hmem
      rw [hgames] at hmem
      exact hwf.noSelf g'' (List.erase_subset _ _ hmem)
  · rw [removeGame_snd_of_not_mem M S g hg]
    exact hwf

theorem reachable_wf (M : Model) (mx : Nat) (S : Schedule)
    (h : Reachable M mx S) : WF M mx S := by
  induction h with
  | empty => exact wf_empty M mx
  | add S g _ ih =>
      rcases hb : (addGame M mx S g).1 with _ | _
      · rw [addGame_snd_of_false M mx S g hb]
        exact ih
      · exact wf_add M mx S g ih hb
  | remove S g _ ih => exact wf_remove M S g mx ih

/-! ## Claim C1 -/

/-- C1 (amended): on every schedule reachable from the empty schedule by
`add_game`/`remove_game` calls, the committed games satisfy: (1) no
truthy (nonzero) `tsl_id` appears in more than one game; (2) for every
team and week at most `max_games_per_week` games whose timeslot is truthy
and week-mapped; (3) for every team and day at most one game (hence at
most `max_games_per_day` for any configured value ≥ 1) whose timeslot is
truthy and day-mapped; (4) every game whose two team ids are truthy pairs
teams of the same division; (5) no game pairs a team with itself.  The
truthiness provisos are forced by the counterexample: `_check_constraints`
skips the division check when a team id is falsy, and never indexes games
with falsy `tsl_id`/`timeslot_id`. -/
theorem claim1_invariants (M : Model) (mx : Nat) (S : Schedule)
    (h : Reachable M mx S) :
    S.games.Pairwise (fun a b => a.tslId = b.tslId → a.tslId = 0) ∧
    (∀ t w, (S.games.filter (inWeek M t w)).length ≤ mx) ∧
    (∀ t d, (S.games.filter (onDay M t d)).length ≤ 1) ∧
    (∀ g ∈ S.games, g.teamA ≠ 0 → g.teamB ≠ 0 →
      M.teamDivision g.teamA = M.teamDivision g.teamB) ∧
    (∀ g ∈ S.games, g.teamA ≠ g.teamB) := by
  have hwf := reachable_wf M mx S h
  exact ⟨hwf.tslUnique, hwf.weekCap, hwf.dayCap, hwf.sameDiv, hwf.noSelf⟩

/-- Witness for C1: the amended invariants evaluated on the concrete
reachable schedule holding the single game `c1g`. -/
theorem claim1_invariants_witness :
    ((addGame c1M 2 Schedule.empty c1g).2).games.Pairwise
      (fun a b => a.tslId = b.tslId → a.tslId = 0) ∧
    (∀ t w,
      (((addGame c1M 2 Schedule.empty c1g).2).games.filter
        (inWeek c1M t w)).length ≤ 2) ∧
    (∀ t d,
      (((addGame c1M 2 Schedule.empty c1g).2).games.filter
        (onDay c1M t d)).length ≤ 1) ∧
    (∀ g ∈ ((addGame c1M 2 Schedule.empty c1g).2).games,
      g.teamA ≠ 0 → g.teamB ≠ 0 →
      c1M.teamDivision g.teamA = c1M.teamDivision g.teamB) ∧
    (∀ g ∈ ((addGame c1M 2 Schedule.empty c1g).2).games,
      g.teamA ≠ g.teamB) :=
  claim1_invariants c1M 2 _
    (Reachable.add Schedule.empty c1g Reachable.empty)

/-- Counterexample to C1 as stated: from the empty schedule, a single
`add_game` call commits the game `c1g` pairing team 0 (division 10) with
team 5 (division 20) — the division check is skipped because `team_a` is
falsy — so a reachable schedule contains a cross-division game. -/
theorem claim1_counterexample :
    (addGame c1M 2 Schedule.empty c1g).1 = true ∧
    c1g ∈ (addGame c1M 2 Schedule.empty c1g).2.games ∧
    c1M.teamDivision c1g.teamA = some 10 ∧
    c1M.teamDivision c1g.teamB = some 20 := by
  refine ⟨by decide, ?_, by decide, by decide⟩
  show c1g ∈ (addGame c1M 2 Schedule.empty c1g).2.games
  have : (addGame c1M 2 Schedule.empty c1g).2.games = [c1g] := by decide
  rw [this]
  exact List.mem_singleton.2 rfl

/-! ## Claim C2 -/

/-- C2: `add_game` signals a constraint conflict through its boolean
result (the embedding is a total function — no exception paths exist in
`add_game` for conflicts), and whenever it returns `False` the schedule —
games list and all four indexes — is exactly the state before the call. -/
theorem claim2_add_failure_no_change (M : Model) (mx : Nat) (S : Schedule)
    (g : Game) (h : (addGame M mx S g).1 = false) :
    (addGame M mx S g).2 = S :=
  addGame_snd_of_false M mx S g h

/-- Witness for C2: adding the self-play game `c2g` to the empty schedule
fails and leaves the schedule exactly empty. -/
theorem claim2_add_failure_no_change_witness :
    (addGame c1M 2 Schedule.empty c2g).2 = Schedule.empty :=
  claim2_add_failure_no_change c1M 2 Schedule.empty c2g (by decide)

/-! ## Claim C4 -/

/-- Exact reversal: on a well-formed schedule, a successful `add_game` of
a not-already-present game followed by `remove_game` of the same game
returns `True` and restores every field of the schedule exactly. -/
theorem add_then_remove_exact (M : Model) (mx : Nat) (S : Schedule)
    (g : Game) (hwf : WF M mx S) (hnm : g ∉ S.games)
    (hadd : (addGame M mx S g).1 = true) :
    removeGame M (addGame M mx S g).2 g = (true, S) := by
    have hc := (addGame_true_iff M mx S g).1 hadd
    rw [checkConstraints_eq_nil] at hc
    obtain ⟨c1, c2, c3, c4, c5⟩ := hc
    have hS' := addGame_snd_of_true M mx S g hadd
    have hgames' : (addGame M mx S g).2.games = S.games ++ [g] := by
      rw [hS', uia_games]
    have hmem : g ∈ (addGame M mx S g).2.games := by
      rw [hgames']
      exact List.mem_append_right _ (List.mem_singleton.2 rfl)
    have hfst : (removeGame M (addGame M mx S g).2 g).1 = true :=
      (removeGame_true_iff M _ g).2 hmem
    have hsnd := removeGame_snd_of_mem M _ g hmem
    have hergames : (addGame M mx S g).2.games.erase g = S.games := by
      rw [hgames', List.erase_append_right _ hnm, List.erase_cons_head,
        List.append_nil]
    have hres : (removeGame M (addGame M mx S g).2 g).2 = S := by
      rw [hsnd]
      ext1
      -- games
      case games =>
        rw [uir_games]
        exact hergames
      -- byTsl
      case byTsl =>
        funext t
        rw [uir_byTsl]
        show _ = S.byTsl t
        by_cases hcond : g.tslId ≠ 0 ∧ t = g.tslId
        · rw [if_pos hcond, hcond.2, c1]
        · rw [if_neg hcond]
          show (addGame M mx S g).2.byTsl t = S.byTsl t
          rw [hS', uia_byTsl, if_neg hcond]
      -- byTeamDay
      case byTeamDay =>
        funext k
        obtain ⟨t, d⟩ := k
        rw [uir_day]
        by_cases hcond : g.timeslotId ≠ 0 ∧ M.dayOf g.timeslotId = some d
            ∧ (t = g.teamA ∨ t = g.teamB)
        · rw [if_pos hcond]
          show ((addGame M mx S g).2.byTeamDay (t, d)).erase g
            = S.byTeamDay (t, d)
          rw [hS', uia_day, if_pos hcond]
          have hng : g ∉ S.byTeamDay (t, d) := by
            rw [hwf.dayEq]
            intro hmm
            exact hnm (List.mem_of_mem_filter hmm)
          rw [List.erase_append_right _ hng, List.erase_cons_head,
            List.append_nil]
        · rw [if_neg hcond]
          show (addGame M mx S g).2.byTeamDay (t, d) = S.byTeamDay (t, d)
          rw [hS', uia_day, if_neg hcond]
      -- byTeamWeek
      case byTeamWeek =>
        funext k
        obtain ⟨t, w⟩ := k
        rw [uir_week]
        by_cases hcond : g.timeslotId ≠ 0 ∧ M.weekOf g.timeslotId = some w
            ∧ (t = g.teamA ∨ t = g.teamB)
        · rw [if_pos hcond]
          show ((addGame M mx S g).2.byTeamWeek (t, w)).erase g
            = S.byTeamWeek (t, w)
          rw [hS', uia_week, if_pos hcond]
          have hng : g ∉ S.byTeamWeek (t, w) := by
            rw [hwf.weekEq]
            intro hmm
            exact hnm (List.mem_of_mem_filter hmm)
          rw [List.erase_append_right _ hng, List.erase_cons_head,
            List.append_nil]
        · rw [if_neg hcond]
          show (addGame M mx S g).2.byTeamWeek (t, w) = S.byTeamWeek (t, w)
          rw [hS', uia_week, if_neg hcond]
      -- usedTsls
      case usedTsls =>
        funext t
        rw [uir_used]
        by_cases hcond : g.tslId ≠ 0 ∧ t = g.tslId
        · rw [if_pos hcond]
          have := hwf.usedIff t
          rw [hcond.2, c1] at this
          rw [hcond.2]
          exact this.symm
        · rw [if_neg hcond]
          show (addGame M mx S g).2.usedTsls t = S.usedTsls t
          rw [hS', uia_used, if_neg hcond]
    calc removeGame M (addGame M mx S g).2 g
        = ((removeGame M (addGame M mx S g).2 g).1,
           (removeGame M (addGame M mx S g).2 g).2) := rfl
      _ = (true, S) := by rw [hfst, hres]

/-- C4 (amended): on a reachable schedule `S`, removing an absent game
returns `False` and changes nothing; and if `add_game g` succeeds AND `g`
was not already an element of `S.games`, the immediately following
`remove_game g` returns `True` and restores the games list and all four
indexes exactly.  The provision `g ∉ S.games` is forced by the
counterexample: a game with falsy `tsl_id` and unmapped timeslot can be
committed twice, and then `list.remove` takes out the FIRST occurrence,
reordering the games list. -/
theorem claim4_remove_reverses_add (M : Model) (mx : Nat) (S : Schedule)
    (g : Game) (hR : Reachable M mx S) :
    (g ∉ S.games → removeGame M S g = (false, S)) ∧
    (g ∉ S.games → (addGame M mx S g).1 = true →
      removeGame M (addGame M mx S g).2 g = (true, S)) := by
  have hwf := reachable_wf M mx S hR
  constructor
  · intro hnm
    unfold removeGame
    rw [if_neg hnm]
  · intro hnm hadd
    exact add_then_remove_exact M mx S g hwf hnm hadd

/-- Witness for C4: on the empty schedule, adding `c4g` and removing it
again returns `True` and restores the empty schedule exactly. -/
theorem claim4_remove_reverses_add_witness :
    removeGame c4M (addGame c4M 2 Schedule.empty c4g).2 c4g
      = (true, Schedule.empty) :=
  (claim4_remove_reverses_add c4M 2 Schedule.empty c4g
    Reachable.empty).2 (by decide) (by decide)

/-- Counterexample to C4 as stated: on the reachable schedule
`c4S = [c4g, c4h]`, `add_game c4g` succeeds a second time (its `tsl_id`
and `timeslot_id` are falsy, so no index blocks it), and the following
`remove_game c4g` returns `True` but leaves the games list `[c4h, c4g]`,
not the original `[c4g, c4h]`: `list.remove` removed the FIRST
occurrence. -/
theorem claim4_counterexample :
    (addGame c4M 2 c4S c4g).1 = true ∧
    (removeGame c4M (addGame c4M 2 c4S c4g).2 c4g).1 = true ∧
    c4S.games = [c4g, c4h] ∧
    (removeGame c4M (addGame c4M 2 c4S c4g).2 c4g).2.games
      = [c4h, c4g] := by
  refine ⟨by decide, by decide, ?_, ?_⟩
  · show c4S.games = [c4g, c4h]
    decide
  · show (removeGame c4M (addGame c4M 2 c4S c4g).2 c4g).2.games
      = [c4h, c4g]
    decide

/-! ## Claim C3 -/

theorem length_le_one_eq_singleton {α : Type} {l : List α} {a : α}
    (h1 : l.length ≤ 1) (ha : a ∈ l) : l = [a] := by
  cases l with
  | nil => cases ha
  | cons x xs =>
      cases xs with
      | nil =>
          rw [List.mem_singleton] at ha
          rw [ha]
      | cons y ys => simp at h1

/-- Re-adding a game just removed from a well-formed schedule succeeds
and restores the schedule up to moving the game to the end of the games
list (and of the per-key index lists); the TSL index and used-TSL set are
restored exactly. -/
theorem readd_exact (M : Model) (mx : Nat) (S : Schedule) (g : Game)
    (hwf : WF M mx S) (hg : g ∈ S.games) :
    (addGame M mx (removeGame M S g).2 g).1 = true ∧
    (addGame M mx (removeGame M S g).2 g).2.games
      = S.games.erase g ++ [g] ∧
    (addGame M mx (removeGame M S g).2 g).2.byTsl = S.byTsl ∧
    (addGame M mx (removeGame M S g).2 g).2.usedTsls = S.usedTsls ∧
    (∀ t d, ((addGame M mx (removeGame M S g).2 g).2.byTeamDay
      (t, d)).Perm (S.byTeamDay (t, d))) ∧
    (∀ t w, ((addGame M mx (removeGame M S g).2 g).2.byTeamWeek
      (t, w)).Perm (S.byTeamWeek (t, w))) := by
  have hS1 := removeGame_snd_of_mem M S g hg
  have hbyTsl0 : S.byTsl 0 = none := by
    cases hb : S.byTsl 0 with
    | none => rfl
    | some gz => exact absurd rfl (hwf.tslSound 0 gz hb).2.2
  have h1games : (removeGame M S g).2.games = S.games.erase g := by
    rw [hS1, uir_games]
  have h1byTsl : ∀ t, (removeGame M S g).2.byTsl t =
      if g.tslId ≠ 0 ∧ t = g.tslId then none else S.byTsl t := by
    intro t
    rw [hS1, uir_byTsl]
  have h1used : ∀ t, (removeGame M S g).2.usedTsls t =
      if g.tslId ≠ 0 ∧ t = g.tslId then false else S.usedTsls t := by
    intro t
    rw [hS1, uir_used]
  have h1day : ∀ t d, (removeGame M S g).2.byTeamDay (t, d) =
      if g.timeslotId ≠ 0 ∧ M.dayOf g.timeslotId = some d
          ∧ (t = g.teamA ∨ t = g.teamB) then
        (S.byTeamDay (t, d)).erase g
      else S.byTeamDay (t, d) := by
    intro t d
    rw [hS1, uir_day]
  have h1week : ∀ t w, (removeGame M S g).2.byTeamWeek (t, w) =
      if g.timeslotId ≠ 0 ∧ M.weekOf g.timeslotId = some w
          ∧ (t = g.teamA ∨ t = g.teamB) then
        (S.byTeamWeek (t, w)).erase g
      else S.byTeamWeek (t, w) := by
    intro t w
    rw [hS1, uir_week]
  -- the re-add passes every constraint
  have hadd : (addGame M mx (removeGame M S g).2 g).1 = true := by
    rw [addGame_true_iff, checkConstraints_eq_nil]
    refine ⟨?_, ?_, ?_, ?_, ?_⟩
    · rw [h1byTsl]
      by_cases h0 : g.tslId = 0
      · rw [if_neg (by tauto), h0]
        exact hbyTsl0
      · rw [if_pos ⟨h0, rfl⟩]
    · intro hts d hd
      constructor <;>
      · rw [h1day, if_pos ⟨hts, hd, by tauto⟩, hwf.dayEq]
        have hmem : g ∈ S.games.filter (onDay M (g.teamA) d) ∨ True := Or.inr trivial
        have hmA : g ∈ S.games.filter (onDay M g.teamA d) :=
          List.mem_filter.2 ⟨hg, (onDay_iff M g.teamA d g).2 ⟨hts, hd, Or.inl rfl⟩⟩
        have hmB : g ∈ S.games.filter (onDay M g.teamB d) :=
          List.mem_filter.2 ⟨hg, (onDay_iff M g.teamB d g).2 ⟨hts, hd, Or.inr rfl⟩⟩
        first
          | (rw [length_le_one_eq_singleton (hwf.dayCap g.teamA d) hmA,
              List.erase_cons_head])
          | (rw [length_le_one_eq_singleton (hwf.dayCap g.teamB d) hmB,
              List.erase_cons_head])
    · intro hts w hw
      constructor <;>
      · rw [h1week, if_pos ⟨hts, hw, by tauto⟩, hwf.weekEq]
        have hmA : g ∈ S.games.filter (inWeek M g.teamA w) :=
          List.mem_filter.2 ⟨hg, (inWeek_iff M g.teamA w g).2 ⟨hts, hw, Or.inl rfl⟩⟩
        have hmB : g ∈ S.games.filter (inWeek M g.teamB w) :=
          List.mem_filter.2 ⟨hg, (inWeek_iff M g.teamB w g).2 ⟨hts, hw, Or.inr rfl⟩⟩
        first
          | (rw [List.length_erase_of_mem hmA]
             have hle := hwf.weekCap g.teamA w
             have hge := List.length_pos_of_mem hmA
             omega)
          | (rw [List.length_erase_of_mem hmB]
             have hle := hwf.weekCap g.teamB w
             have hge := List.length_pos_of_mem hmB
             omega)
    · exact hwf.sameDiv g hg
    · exact hwf.noSelf g hg
  refine ⟨hadd, ?_, ?_, ?_, ?_, ?_⟩
  · rw [addGame_snd_of_true _ _ _ _ hadd, uia_games]
    show (removeGame M S g).2.games ++ [g] = S.games.erase g ++ [g]
    rw [h1games]
  · funext t
    rw [addGame_snd_of_true _ _ _ _ hadd, uia_byTsl]
    by_cases hcond : g.tslId ≠ 0 ∧ t = g.tslId
    · rw [if_pos hcond, hcond.2]
      exact (hwf.tslComplete g hg hcond.1).symm
    · rw [if_neg hcond]
      show (removeGame M S g).2.byTsl t = S.byTsl t
      rw [h1byTsl, if_neg hcond]
  · funext t
    rw [addGame_snd_of_true _ _ _ _ hadd, uia_used]
    by_cases hcond : g.tslId ≠ 0 ∧ t = g.tslId
    · rw [if_pos hcond, hcond.2]
      have := hwf.usedIff g.tslId
      rw [hwf.tslComplete g hg hcond.1] at this
      exact this.symm
    · rw [if_neg hcond]
      show (removeGame M S g).2.usedTsls t = S.usedTsls t
      rw [h1used, if_neg hcond]
  · intro t d
    rw [addGame_snd_of_true _ _ _ _ hadd, uia_day]
    by_cases hcond : g.timeslotId ≠ 0 ∧ M.dayOf g.timeslotId = some d
        ∧ (t = g.teamA ∨ t = g.teamB)
    · rw [if_pos hcond]
      show List.Perm ((removeGame M S g).2.byTeamDay (t, d) ++ [g])
        (S.byTeamDay (t, d))
      rw [h1day, if_pos hcond]
      have hmem : g ∈ S.byTeamDay (t, d) := by
        rw [hwf.dayEq]
        exact List.mem_filter.2
          ⟨hg, (onDay_iff M t d g).2 ⟨hcond.1, hcond.2.1, hcond.2.2⟩⟩
      exact (List.perm_append_singleton g _).trans
        (List.perm_cons_erase hmem).symm
    · rw [if_neg hcond]
      show List.Perm ((removeGame M S g).2.byTeamDay (t, d))
        (S.byTeamDay (t, d))
      rw [h1day, if_neg hcond]
  · intro t w
    rw [addGame_snd_of_true _ _ _ _ hadd, uia_week]
    by_cases hcond : g.timeslotId ≠ 0 ∧ M.weekOf g.timeslotId = some w
        ∧ (t = g.teamA ∨ t = g.teamB)
    · rw [if_pos hcond]
      show List.Perm ((removeGame M S g).2.byTeamWeek (t, w) ++ [g])
        (S.byTeamWeek (t, w))
      rw [h1week, if_pos hcond]
      have hmem : g ∈ S.byTeamWeek (t, w) := by
        rw [hwf.weekEq]
        exact List.mem_filter.2
          ⟨hg, (inWeek_iff M t w g).2 ⟨hcond.1, hcond.2.1, hcond.2.2⟩⟩
      exact (List.perm_append_singleton g _).trans
        (List.perm_cons_erase hmem).symm
    · rw [if_neg hcond]
      show List.Perm ((removeGame M S g).2.byTeamWeek (t, w))
        (S.byTeamWeek (t, w))
      rw [h1week, if_neg hcond]

/-- The state after remove-then-re-add of `orig` satisfies all rollback
conclusions: `orig` back in, `modified`/`newG` absent, and the schedule
equal to `S` up to the order of the games list and index lists. -/
theorem rollback_facts (M : Model) (mx : Nat) (S : Schedule)
    (orig modified newG : Game) (hwf : WF M mx S) (horig : orig ∈ S.games)
    (hmodnm : modified ∉ S.games) (hnewnm : newG ∉ S.games) :
    orig ∈ (addGame M mx (removeGame M S orig).2 orig).2.games ∧
    modified ∉ (addGame M mx (removeGame M S orig).2 orig).2.games ∧
    newG ∉ (addGame M mx (removeGame M S orig).2 orig).2.games ∧
    List.Perm (addGame M mx (removeGame M S orig).2 orig).2.games S.games ∧
    (addGame M mx (removeGame M S orig).2 orig).2.byTsl = S.byTsl ∧
    (addGame M mx (removeGame M S orig).2 orig).2.usedTsls = S.usedTsls ∧
    (∀ t d, List.Perm
      ((addGame M mx (removeGame M S orig).2 orig).2.byTeamDay (t, d))
      (S.byTeamDay (t, d))) ∧
    (∀ t w, List.Perm
      ((addGame M mx (removeGame M S orig).2 orig).2.byTeamWeek (t, w))
      (S.byTeamWeek (t, w))) := by
  obtain ⟨hadd, hgames, hbyTsl, hused, hday, hweek⟩ :=
    readd_exact M mx S orig hwf horig
  have hmo : modified ≠ orig := fun he => hmodnm (he ▸ horig)
  have hno : newG ≠ orig := fun he => hnewnm (he ▸ horig)
  refine ⟨?_, ?_, ?_, ?_, hbyTsl, hused, hday, hweek⟩
  · rw [hgames]
    exact List.mem_append_right _ (List.mem_singleton.2 rfl)
  · rw [hgames]
    intro hmm
    rcases List.mem_append.1 hmm with hm | hm
    · exact hmodnm (List.erase_subset _ _ hm)
    · exact hmo (List.mem_singleton.1 hm)
  · rw [hgames]
    intro hmm
    rcases List.mem_append.1 hmm with hm | hm
    · exact hnewnm (List.erase_subset _ _ hm)
    · exact hno (List.mem_singleton.1 hm)
  · rw [hgames]
    exact (List.perm_append_singleton orig _).trans
      (List.perm_cons_erase horig).symm

/-- Branch reduction of `_apply_swap`: the remove succeeds and the add of
the modified game fails. -/
theorem applySwap_eq_rollback_a (M : Model) (mx : Nat) (S : Schedule)
    (o m n : Game) (h1 : (removeGame M S o).1 = true)
    (h2 : (addGame M mx (removeGame M S o).2 m).1 = false) :
    applySwap M mx S o m n
      = (addGame M mx (addGame M mx (removeGame M S o).2 m).2 o).2 := by
  unfold applySwap
  split
  · rename_i S0 heq
    rw [heq] at h1
    cases h1
  · rename_i S1 heq
    have hS1 : S1 = (removeGame M S o).2 := by rw [heq]
    subst hS1
    split
    · rename_i S1x heq2
      have hx : S1x = (addGame M mx (removeGame M S o).2 m).2 := by
        rw [heq2]
      subst hx
      rfl
    · rename_i S2 heq2
      rw [heq2] at h2
      cases h2

/-- Branch reduction of `_apply_swap`: both the remove and the add of the
modified game succeed but the add of the replacement game fails. -/
theorem applySwap_eq_rollback_b (M : Model) (mx : Nat) (S : Schedule)
    (o m n : Game) (h1 : (removeGame M S o).1 = true)
    (h2 : (addGame M mx (removeGame M S o).2 m).1 = true)
    (h3 : (addGame M mx (addGame M mx (removeGame M S o).2 m).2 n).1
      = false) :
    applySwap M mx S o m n
      = (addGame M mx
          (removeGame M
            (addGame M mx (addGame M mx (removeGame M S o).2 m).2 n).2
            m).2 o).2 := by
  unfold applySwap
  split
  · rename_i S0 heq
    rw [heq] at h1
    cases h1
  · rename_i S1 heq
    have hS1 : S1 = (removeGame M S o).2 := by rw [heq]
    subst hS1
    split
    · rename_i S1x heq2
      rw [heq2] at h2
      cases h2
    · rename_i S2 heq2
      have hS2 : S2 = (addGame M mx (removeGame M S o).2 m).2 := by
        rw [heq2]
      subst hS2
      split
      · rename_i S2x heq3
        have hx : S2x
            = (addGame M mx (addGame M mx (removeGame M S o).2 m).2 n).2 := by
          rw [heq3]
        subst hx
        rfl
      · rename_i S3 heq3
        rw [heq3] at h3
        cases h3

/-- Branch reduction of `_apply_swap`: all three steps succeed. -/
theorem applySwap_eq_success (M : Model) (mx : Nat) (S : Schedule)
    (o m n : Game) (h1 : (removeGame M S o).1 = true)
    (h2 : (addGame M mx (removeGame M S o).2 m).1 = true)
    (h3 : (addGame M mx (addGame M mx (removeGame M S o).2 m).2 n).1
      = true) :
    applySwap M mx S o m n
      = (addGame M mx (addGame M mx (removeGame M S o).2 m).2 n).2 := by
  unfold applySwap
  split
  · rename_i S0 heq
    rw [heq] at h1
    cases h1
  · rename_i S1 heq
    have hS1 : S1 = (removeGame M S o).2 := by rw [heq]
    subst hS1
    split
    · rename_i S1x heq2
      rw [heq2] at h2
      cases h2
    · rename_i S2 heq2
      have hS2 : S2 = (addGame M mx (removeGame M S o).2 m).2 := by
        rw [heq2]
      subst hS2
      split
      · rename_i S2x heq3
        rw [heq3] at h3
        cases h3
      · rename_i S3 heq3
        rw [heq3]

/-- C3 (amended): take a reachable schedule `S`, a committed game `orig`,
and games `modified`, `newG` not yet committed (as `_try_swap` produces).
If the displacement attempt fails after the successful removal of `orig`
— either `add_game(modified)` fails, or it succeeds and
`add_game(new_game)` fails — then `_apply_swap` returns with `orig`
restored and neither `modified` nor `newG` committed, and the schedule
equals the pre-swap state up to the position of `orig` in the games list
and in the per-team index lists (the TSL index and used-TSL set are
restored exactly); the games list is NOT in general byte-for-byte
identical, which the counterexample shows.  A fully successful swap
commits exactly `modified` and `newG` in place of `orig`. -/
theorem claim3_apply_swap_transactional (M : Model) (mx : Nat)
    (S : Schedule) (orig modified newG : Game) (hR : Reachable M mx S)
    (horig : orig ∈ S.games) (hmodnm : modified ∉ S.games)
    (hnewnm : newG ∉ S.games) :
    (((addGame M mx (removeGame M S orig).2 modified).1 = false ∨
      ((addGame M mx (removeGame M S orig).2 modified).1 = true ∧
        (addGame M mx (addGame M mx (removeGame M S orig).2 modified).2
          newG).1 = false)) →
      orig ∈ (applySwap M mx S orig modified newG).games ∧
      modified ∉ (applySwap M mx S orig modified newG).games ∧
      newG ∉ (applySwap M mx S orig modified newG).games ∧
      List.Perm (applySwap M mx S orig modified newG).games S.games ∧
      (applySwap M mx S orig modified newG).byTsl = S.byTsl ∧
      (applySwap M mx S orig modified newG).usedTsls = S.usedTsls ∧
      (∀ t d, List.Perm
        ((applySwap M mx S orig modified newG).byTeamDay (t, d))
        (S.byTeamDay (t, d))) ∧
      (∀ t w, List.Perm
        ((applySwap M mx S orig modified newG).byTeamWeek (t, w))
        (S.byTeamWeek (t, w)))) ∧
    ((addGame M mx (removeGame M S orig).2 modified).1 = true →
      (addGame M mx (addGame M mx (removeGame M S orig).2 modified).2
        newG).1 = true →
      (applySwap M mx S orig modified newG).games
        = S.games.erase orig ++ [modified, newG]) := by
  have hwf := reachable_wf M mx S hR
  have hrem1 : (removeGame M S orig).1 = true :=
    (removeGame_true_iff M S orig).2 horig
  constructor
  · intro hfail
    have hR0 : applySwap M mx S orig modified newG
        = (addGame M mx (removeGame M S orig).2 orig).2 := by
      rcases hfail with hf | hf
      · rw [applySwap_eq_rollback_a M mx S orig modified newG hrem1 hf,
          addGame_snd_of_false M mx _ modified hf]
      · have hwf1 : WF M mx (removeGame M S orig).2 :=
          wf_remove M S orig mx hwf
        have hmod1 : modified ∉ (removeGame M S orig).2.games := by
          rw [removeGame_snd_of_mem M S orig horig, uir_games]
          intro hmm
          exact hmodnm (List.erase_subset _ _ hmm)
        rw [applySwap_eq_rollback_b M mx S orig modified newG hrem1
            hf.1 hf.2,
          addGame_snd_of_false M mx _ newG hf.2,
          add_then_remove_exact M mx (removeGame M S orig).2 modified
            hwf1 hmod1 hf.1]
    rw [hR0]
    exact rollback_facts M mx S orig modified newG hwf horig
      hmodnm hnewnm
  · intro h2 h3
    rw [applySwap_eq_success M mx S orig modified newG hrem1 h2 h3,
      addGame_snd_of_true M mx _ newG h3, uia_games]
    show (addGame M mx (removeGame M S orig).2 modified).2.games
        ++ [newG] = S.games.erase orig ++ [modified, newG]
    rw [addGame_snd_of_true M mx _ modified h2, uia_games]
    show (removeGame M S orig).2.games ++ [modified] ++ [newG]
      = S.games.erase orig ++ [modified, newG]
    rw [removeGame_snd_of_mem M S orig horig, uir_games,
      List.append_assoc]
    rfl

/-- Witness for C3: on the concrete reachable schedule
`c3S = [c3orig, c3other]`, the swap attempt with `c3mod`/`c3new` fails at
the third step (the replacement game's TSL is taken), and `_apply_swap`
restores the original game with the state intact up to ordering. -/
theorem claim3_apply_swap_transactional_witness :
    c3orig ∈ (applySwap c3M 2 c3S c3orig c3mod c3new).games ∧
    c3mod ∉ (applySwap c3M 2 c3S c3orig c3mod c3new).games ∧
    c3new ∉ (applySwap c3M 2 c3S c3orig c3mod c3new).games ∧
    List.Perm (applySwap c3M 2 c3S c3orig c3mod c3new).games c3S.games ∧
    (applySwap c3M 2 c3S c3orig c3mod c3new).byTsl = c3S.byTsl ∧
    (applySwap c3M 2 c3S c3orig c3mod c3new).usedTsls = c3S.usedTsls ∧
    (∀ t d, List.Perm
      ((applySwap c3M 2 c3S c3orig c3mod c3new).byTeamDay (t, d))
      (c3S.byTeamDay (t, d))) ∧
    (∀ t w, List.Perm
      ((applySwap c3M 2 c3S c3orig c3mod c3new).byTeamWeek (t, w))
      (c3S.byTeamWeek (t, w))) :=
  (claim3_apply_swap_transactional c3M 2 c3S c3orig c3mod c3new
    (Reachable.add _ c3other (Reachable.add _ c3orig Reachable.empty))
    (by decide) (by decide) (by decide)).1
    (Or.inr ⟨by decide, by decide⟩)

/-- Counterexample to C3 as stated: in the same concrete scenario the
final schedule is NOT identical to the pre-swap state — the games list
order changed from `[c3orig, c3other]` to `[c3other, c3orig]`, because
the rollback re-appends the original game at the end. -/
theorem claim3_counterexample :
    (removeGame c3M c3S c3orig).1 = true ∧
    (addGame c3M 2 (removeGame c3M c3S c3orig).2 c3mod).1 = true ∧
    (addGame c3M 2 (addGame c3M 2 (removeGame c3M c3S c3orig).2 c3mod).2
      c3new).1 = false ∧
    c3S.games = [c3orig, c3other] ∧
    (applySwap c3M 2 c3S c3orig c3mod c3new).games
      = [c3other, c3orig] := by
  refine ⟨by decide, by decide, by decide, by decide, by decide⟩

/-! ## Claim C5 -/

/-- The week loop never breaks early: `_should_stop_after_week` is
constantly `False`, so the loop is a plain fold over all weeks. -/
theorem controllerWeekLoop_eq_foldl (M : Model)
    (p1a p1b p1c p2 : PhaseFun) (stop : Option StopPhase)
    (cands : List CandGame) (ws : List Nat) (s : Schedule × Nat) :
    controllerWeekLoop M p1a p1b p1c p2 stop cands ws s
      = ws.foldl
          (fun s w => scheduleWeek p1a p1b p1c p2 stop s
            (weekBucket M cands w) w) s := by
  induction ws generalizing s with
  | nil => rfl
  | cons w ws ih =>
      unfold controllerWeekLoop
      simp only [shouldStopAfterWeek, Bool.and_false]
      rw [if_neg (by decide), List.foldl_cons, ih]

/-- C5 (amended): with `stop_after_phase` set, the controller runs, for
EVERY week of the candidate grouping (not just the current week), exactly
the phases up to the named one, and never stops between weeks.  In
particular with `'1A'` the result is the fold of phase 1A alone over all
weeks, and is independent of the later phase objects. -/
theorem claim5_stop_after_phase (M : Model)
    (p1a p1b p1c p2 q1b q1c q2 : PhaseFun) (cands : List CandGame)
    (hc : ¬ cands.isEmpty) (hw : ¬ (controllerWeeks M cands).isEmpty) :
    (∀ stop : Option StopPhase,
      controllerSchedule M p1a p1b p1c p2 stop cands
        = Except.ok ((controllerWeeks M cands).foldl
            (fun s w => scheduleWeek p1a p1b p1c p2 stop s
              (weekBucket M cands w) w)
            (Schedule.empty, 0)).1.games) ∧
    controllerSchedule M p1a p1b p1c p2 (some StopPhase.pA) cands
      = Except.ok ((controllerWeeks M cands).foldl
          (fun s w => p1a s (weekBucket M cands w) w)
          (Schedule.empty, 0)).1.games ∧
    controllerSchedule M p1a p1b p1c p2 (some StopPhase.pA) cands
      = controllerSchedule M p1a q1b q1c q2 (some StopPhase.pA) cands := by
  have hgen : ∀ (pb pc pd : PhaseFun) (stop : Option StopPhase),
      controllerSchedule M p1a pb pc pd stop cands
        = Except.ok ((controllerWeeks M cands).foldl
            (fun s w => scheduleWeek p1a pb pc pd stop s
              (weekBucket M cands w) w)
            (Schedule.empty, 0)).1.games := by
    intro pb pc pd stop
    unfold controllerSchedule
    rw [if_neg (by simpa using hc), if_neg (by simpa using hw),
      controllerWeekLoop_eq_foldl]
  have hA : ∀ (pb pc pd : PhaseFun) (s : Schedule × Nat)
      (wg : List CandGame) (w : Nat),
      scheduleWeek p1a pb pc pd (some StopPhase.pA) s wg w = p1a s wg w := by
    intro pb pc pd s wg w
    unfold scheduleWeek
    rw [if_pos rfl]
  refine ⟨hgen p1b p1c p2, ?_, ?_⟩
  · rw [hgen p1b p1c p2 (some StopPhase.pA)]
    simp only [hA]
  · rw [hgen p1b p1c p2 (some StopPhase.pA),
      hgen q1b q1c q2 (some StopPhase.pA)]
    simp only [hA]

/-- Witness for C5 (amended): the fold equality applied to the concrete
two-week model with the real Phase 1A object. -/
theorem claim5_stop_after_phase_witness :
    controllerSchedule c5M (phase1A c5M rnd0 2) (phase1B c5M rnd0 2)
      (phase1C c5M rnd0 2) (phase2 c5M rnd0 2) (some StopPhase.pA) c5cands
      = Except.ok ((controllerWeeks c5M c5cands).foldl
          (fun s w => phase1A c5M rnd0 2 s (weekBucket c5M c5cands w) w)
          (Schedule.empty, 0)).1.games :=
  (claim5_stop_after_phase c5M (phase1A c5M rnd0 2) (phase1B c5M rnd0 2)
    (phase1C c5M rnd0 2) (phase2 c5M rnd0 2) (phase1B c5M rnd0 2)
    (phase1C c5M rnd0 2) (phase2 c5M rnd0 2) c5cands (by decide)
    (by decide)).2.1

/-- Counterexample to C5 as stated: with `stop_after_phase = '1A'` on the
two-week model `c5M`, the controller does NOT return after the first
(current) week: the result contains the game `c5g2` bound to TSL 2 of
week 1, a strictly later week than the first week 0. -/
theorem claim5_counterexample :
    controllerScheduleFull c5M rnd0 2 (some StopPhase.pA) c5cands
      = Except.ok [c5g1, c5g2] ∧
    controllerWeeks c5M c5cands = [0, 1] ∧
    c5M.weekOf c5g2.timeslotId = some 1 := by
  refine ⟨?_, by decide, by decide⟩
  rfl

/-! ## Claim C6 -/

/-- C6 (amended): in Phase 1A the division's unscheduled teams are
ordered — both for the choice of the focal team and for the opponents
tried after it — by ASCENDING Phase 1A strength score
(`previous_year_ranking` default 999, minus wins plus losses), with no
randomised tie-break and no use of `totalGameCount`: the sorted list is a
permutation of the unscheduled teams, it is weakly sorted by the score,
and its first element (the focal team tried first) has minimal score. -/
theorem claim6_phase1a_ordering (M : Model) (teams : List Team)
    (S : Schedule) (w : Nat) :
    List.Sorted (fun a b => phase1aStrength M a ≤ phase1aStrength M b)
      (getUnscheduledTeamsSorted M teams S w) ∧
    List.Perm (getUnscheduledTeamsSorted M teams S w)
      (teams.filter (fun t =>
        !((scheduledTeamIdsForWeek M S w).contains t.teamId))) ∧
    (∀ t1, (getUnscheduledTeamsSorted M teams S w).head? = some t1 →
      ∀ t ∈ getUnscheduledTeamsSorted M teams S w,
        phase1aStrength M t1 ≤ phase1aStrength M t) := by
  haveI : IsTotal Team
      (fun a b => phase1aStrength M a ≤ phase1aStrength M b) :=
    ⟨fun a b => Int.le_total _ _⟩
  haveI : IsTrans Team
      (fun a b => phase1aStrength M a ≤ phase1aStrength M b) :=
    ⟨fun _ _ _ hab hbc => le_trans hab hbc⟩
  have hs : List.Sorted
      (fun a b => phase1aStrength M a ≤ phase1aStrength M b)
      (getUnscheduledTeamsSorted M teams S w) :=
    List.sorted_insertionSort _ _
  refine ⟨hs, List.perm_insertionSort _ _, ?_⟩
  intro t1 h1 t ht
  cases hL : getUnscheduledTeamsSorted M teams S w with
  | nil =>
      rw [hL] at h1
      cases h1
  | cons a l =>
      rw [hL] at h1 ht hs
      cases h1
      rcases List.mem_cons.1 ht with he | hm
      · rw [he]
      · exact List.rel_of_sorted_cons hs t hm

/-- Witness for C6: the ordering facts instantiated on the concrete
division of `c6M` with the empty schedule. -/
theorem claim6_phase1a_ordering_witness :
    List.Sorted
      (fun a b => phase1aStrength c6M a ≤ phase1aStrength c6M b)
      (getUnscheduledTeamsSorted c6M (c6M.teamsByDivision 1)
        Schedule.empty 0) ∧
    List.Perm
      (getUnscheduledTeamsSorted c6M (c6M.teamsByDivision 1)
        Schedule.empty 0)
      ((c6M.teamsByDivision 1).filter (fun t =>
        !((scheduledTeamIdsForWeek c6M Schedule.empty 0).contains
          t.teamId))) ∧
    (∀ t1, (getUnscheduledTeamsSorted c6M (c6M.teamsByDivision 1)
        Schedule.empty 0).head? = some t1 →
      ∀ t ∈ getUnscheduledTeamsSorted c6M (c6M.teamsByDivision 1)
        Schedule.empty 0,
        phase1aStrength c6M t1 ≤ phase1aStrength c6M t) :=
  claim6_phase1a_ordering c6M (c6M.teamsByDivision 1) Schedule.empty 0

/-- Counterexample to C6 as stated: in `c6M` team 1 has `totalGameCount`
0 and team 2 has 2, so the claim requires team 1 (the unique minimum) as
the first focal team; but `_find_next_game_for_division` produces a game
whose `teamA` (the focal team it tried first) is team 2 — the code orders
by strength score (team 2: 1 − 2 + 0 = −1; team 1: 5), not by
`totalGameCount`, and the outcome is the same under a different index
stream, so no random tie-break is involved. -/
theorem claim6_counterexample :
    (phase1aFindNextGame c6M rnd0 (c6M.teamsByDivision 1)
      Schedule.empty 0 0).1
      = some { teamA := 2, teamB := 1, divisionId := 1, timeslotId := 1
               locationId := 1, tslId := 1, date := 0, modifier := 0 } ∧
    (phase1aFindNextGame c6M rnd1 (c6M.teamsByDivision 1)
      Schedule.empty 0 0).1
      = some { teamA := 2, teamB := 1, divisionId := 1, timeslotId := 1
               locationId := 1, tslId := 1, date := 0, modifier := 0 } ∧
    getTotalGameCount c6M 2 Schedule.empty = 2 ∧
    getTotalGameCount c6M 1 Schedule.empty = 0 ∧
    phase1aStrength c6M ⟨2, 1, some 1, 0⟩ = -1 ∧
    phase1aStrength c6M ⟨1, 1, some 5, 0⟩ = 5 := by
  refine ⟨by decide, by decide, by decide, by decide, by decide, by decide⟩

/-! ## Claim C7 -/

/-- `random.choice` returns an element of its (nonempty) argument, for
every index stream. -/
theorem chooseFrom_mem (rnd : Nat → Nat) (k : Nat) {l : List Tsl}
    (h : l ≠ []) : chooseFrom rnd k l ∈ l := by
  unfold chooseFrom
  have hpos : 0 < l.length := List.length_pos.2 h
  have hlt : rnd k % l.length < l.length := Nat.mod_lt _ hpos
  rw [List.getD_eq_getElem?_getD, List.getElem?_eq_getElem hlt,
    Option.getD_some]
  exact List.getElem_mem hlt

/-- The Phase 1A tiers are sublists of the available TSLs. -/
theorem prefSunTier_subset (M : Model) (S : Schedule) (a b w : Nat)
    {c : Tsl} (h : c ∈ phase1aPrefSunTier M S a b w) :
    c ∈ availableTslsFor M S a b w :=
  List.mem_of_mem_filter h

theorem prefAnyTier_subset (M : Model) (S : Schedule) (a b w : Nat)
    {c : Tsl} (h : c ∈ phase1aPrefAnyTier M S a b w) :
    c ∈ availableTslsFor M S a b w :=
  List.mem_of_mem_filter h

theorem sunAnyTier_subset (M : Model) (S : Schedule) (a b w : Nat)
    {c : Tsl} (h : c ∈ phase1aSunAnyTier M S a b w) :
    c ∈ availableTslsFor M S a b w :=
  List.mem_of_mem_filter h

/-- C7 (amended): when Phase 1A binds a TSL for a pair, it chooses among
the available TSLs (both teams available, current week, unused) by the
4-tier preference order teamPreferred+Sunday > teamPreferred(any day) >
Sunday > any remaining, taking an arbitrary (RNG-indexed) element WITHIN
the first nonempty tier; there are no division-preferred tiers in
Phase 1A, and a Sunday-only TSL does NOT outrank a preferred-location
weekday TSL. -/
theorem claim7_phase1a_tiers (M : Model) (rnd : Nat → Nat) (S : Schedule)
    (a b w k kk : Nat) (g : Game)
    (h : phase1aTryToFindGame M rnd S a b w k = (some g, kk)) :
    ∃ c, c ∈ availableTslsFor M S a b w ∧ g = mkGameFromTsl M a b c ∧
      (phase1aPrefSunTier M S a b w ≠ [] →
        c ∈ phase1aPrefSunTier M S a b w) ∧
      (phase1aPrefSunTier M S a b w = [] →
        phase1aPrefAnyTier M S a b w ≠ [] →
        c ∈ phase1aPrefAnyTier M S a b w) ∧
      (phase1aPrefSunTier M S a b w = [] →
        phase1aPrefAnyTier M S a b w = [] →
        phase1aSunAnyTier M S a b w ≠ [] →
        c ∈ phase1aSunAnyTier M S a b w) := by
  unfold phase1aTryToFindGame at h
  split at h
  · cases h
  · dsimp only at h
    split at h
    · cases h
    · rename_i hguard hne
      simp only [Prod.mk.injEq, Option.some.injEq] at h
      have hg := h.1
      have hnav : availableTslsFor M S a b w ≠ [] := by
        intro he
        rw [he] at hne
        exact hne rfl
      by_cases h1 : (phase1aPrefSunTier M S a b w).isEmpty
      · by_cases h2 : (phase1aPrefAnyTier M S a b w).isEmpty
        · by_cases h3 : (phase1aSunAnyTier M S a b w).isEmpty
          · refine ⟨chooseFrom rnd k (availableTslsFor M S a b w),
              chooseFrom_mem rnd k hnav, ?_, ?_, ?_, ?_⟩
            · rw [← hg]
              simp [h1, h2, h3]
            · intro hne1
              exact absurd (List.isEmpty_iff.1 h1) hne1
            · intro _ hne2
              exact absurd (List.isEmpty_iff.1 h2) hne2
            · intro _ _ hne3
              exact absurd (List.isEmpty_iff.1 h3) hne3
          · have hne3 : phase1aSunAnyTier M S a b w ≠ [] := by
              simpa [List.isEmpty_iff] using h3
            refine ⟨chooseFrom rnd k (phase1aSunAnyTier M S a b w),
              sunAnyTier_subset M S a b w (chooseFrom_mem rnd k hne3),
              ?_, ?_, ?_, ?_⟩
            · rw [← hg]
              simp [h1, h2, h3]
            · intro hne1
              exact absurd (List.isEmpty_iff.1 h1) hne1
            · intro _ hne2
              exact absurd (List.isEmpty_iff.1 h2) hne2
            · intro _ _ _
              exact chooseFrom_mem rnd k hne3
        · have hne2 : phase1aPrefAnyTier M S a b w ≠ [] := by
            simpa [List.isEmpty_iff] using h2
          refine ⟨chooseFrom rnd k (phase1aPrefAnyTier M S a b w),
            prefAnyTier_subset M S a b w (chooseFrom_mem rnd k hne2),
            ?_, ?_, ?_, ?_⟩
          · rw [← hg]
            simp [h1, h2]
          · intro hne1
            exact absurd (List.isEmpty_iff.1 h1) hne1
          · intro _ _
            exact chooseFrom_mem rnd k hne2
          · intro _ habs _
            exact absurd habs (by simpa [List.isEmpty_iff] using h2)
      · have hne1 : phase1aPrefSunTier M S a b w ≠ [] := by
          simpa [List.isEmpty_iff] using h1
        refine ⟨chooseFrom rnd k (phase1aPrefSunTier M S a b w),
          prefSunTier_subset M S a b w (chooseFrom_mem rnd k hne1),
          ?_, ?_, ?_, ?_⟩
        · rw [← hg]
          simp [h1]
        · intro _
          exact chooseFrom_mem rnd k hne1
        · intro habs _
          exact absurd habs (by simpa [List.isEmpty_iff] using h1)
        · intro habs _ _
          exact absurd habs (by simpa [List.isEmpty_iff] using h1)

/-- Witness for C7 (amended): the tier membership applied to the concrete
model `c7M` (where the chosen TSL is the preferred-location weekday
TSL 1). -/
theorem claim7_phase1a_tiers_witness :
    ∃ c, c ∈ availableTslsFor c7M Schedule.empty 1 2 0 ∧
      (phase1aTryToFindGame c7M rnd0 Schedule.empty 1 2 0 0).1.getD
          { teamA := 0, teamB := 0, divisionId := 0, timeslotId := 0
            locationId := 0, tslId := 0, date := 0, modifier := 0 }
        = mkGameFromTsl c7M 1 2 c ∧
      (phase1aPrefSunTier c7M Schedule.empty 1 2 0 ≠ [] →
        c ∈ phase1aPrefSunTier c7M Schedule.empty 1 2 0) ∧
      (phase1aPrefSunTier c7M Schedule.empty 1 2 0 = [] →
        phase1aPrefAnyTier c7M Schedule.empty 1 2 0 ≠ [] →
        c ∈ phase1aPrefAnyTier c7M Schedule.empty 1 2 0) ∧
      (phase1aPrefSunTier c7M Schedule.empty 1 2 0 = [] →
        phase1aPrefAnyTier c7M Schedule.empty 1 2 0 = [] →
        phase1aSunAnyTier c7M Schedule.empty 1 2 0 ≠ [] →
        c ∈ phase1aSunAnyTier c7M Schedule.empty 1 2 0) := by
  obtain ⟨c, hc⟩ := claim7_phase1a_tiers c7M rnd0 Schedule.empty 1 2 0 0
    ((phase1aTryToFindGame c7M rnd0 Schedule.empty 1 2 0 0).2)
    ((phase1aTryToFindGame c7M rnd0 Schedule.empty 1 2 0 0).1.getD
      { teamA := 0, teamB := 0, divisionId := 0, timeslotId := 0
        locationId := 0, tslId := 0, date := 0, modifier := 0 })
    (by decide)
  exact ⟨c, hc⟩

/-- Counterexample to C7 as stated: in `c7M` the available TSLs for the
pair are the preferred-location weekday TSL 1 and the Sunday TSL 2.  The
claimed 6-tier order puts "any Sunday" (tier 3) above "team preferred"
(tier 4), so it would bind TSL 2; Phase 1A binds TSL 1 (its tier 2,
preferred location on any day, outranks Sunday). -/
theorem claim7_counterexample :
    availableTslsFor c7M Schedule.empty 1 2 0 = [c7tslPref, c7tslSun] ∧
    isSundayTsl c7M c7tslPref = false ∧
    isSundayTsl c7M c7tslSun = true ∧
    preferredLocationIds c7M 1 2 = [1] ∧
    c7tslPref.locationId = 1 ∧
    c7tslSun.locationId = 2 ∧
    ((phase1aTryToFindGame c7M rnd0 Schedule.empty 1 2 0 0).1.map
      (fun g => g.tslId)) = some c7tslPref.tslId ∧
    c7tslPref.tslId ≠ c7tslSun.tslId := by
  refine ⟨by decide, by decide, by decide, by decide, by decide,
    by decide, by decide, by decide⟩

/-! ## Claim C8 -/

/-- C8 (amended): the strength score actually used by the scheduling
phases (Phase 1A's and Phase 2's identical overrides) is
`previous_year_ranking` (default 999, a zero ranking also falls back to
999) minus wins plus losses over the scored historical games, with ties
counted as losses; the base-class score — which implements the
specification's formula `100 × (1 − winPct)` once the historical date
range exceeds 3 weeks, 999 with no scored games, else the prior-year
ranking — is overridden by both phases that rank by strength.  Lower
scores still mean stronger teams. -/
theorem claim8_strength_scores (M : Model) (tm : Team) :
    phase1aStrength M tm = phase2Strength M tm ∧
    phase1aStrength M tm
      = effRank tm - ((winLoss M tm.teamId).1 : Int)
          + ((winLoss M tm.teamId).2 : Int) ∧
    (hasSufficientSeasonData M = true →
      (winLoss M tm.teamId).1 + (winLoss M tm.teamId).2 ≠ 0 →
      baseStrength M tm
        = (1 - ((winLoss M tm.teamId).1 : ℚ)
            / (((winLoss M tm.teamId).1 : ℚ)
              + ((winLoss M tm.teamId).2 : ℚ))) * 100) ∧
    (hasSufficientSeasonData M = true →
      (winLoss M tm.teamId).1 + (winLoss M tm.teamId).2 = 0 →
      baseStrength M tm = 999) ∧
    (hasSufficientSeasonData M = false →
      baseStrength M tm = (effRank tm : ℚ)) := by
  refine ⟨rfl, rfl, ?_, ?_, ?_⟩
  · intro hs hwl
    unfold baseStrength calculateSeasonRanking
    rw [if_pos hs, if_neg hwl]
  · intro hs hwl
    unfold baseStrength calculateSeasonRanking
    rw [if_pos hs, if_pos hwl]
  · intro hs
    unfold baseStrength
    rw [hs]
    rfl

/-- Witness for C8 (amended): the formulas evaluated on the concrete
model `c8M` and team `c8tm`. -/
theorem claim8_strength_scores_witness :
    phase1aStrength c8M c8tm = phase2Strength c8M c8tm ∧
    baseStrength c8M c8tm
      = (1 - ((winLoss c8M c8tm.teamId).1 : ℚ)
          / (((winLoss c8M c8tm.teamId).1 : ℚ)
            + ((winLoss c8M c8tm.teamId).2 : ℚ))) * 100 :=
  ⟨(claim8_strength_scores c8M c8tm).1,
   (claim8_strength_scores c8M c8tm).2.2.1 (by decide) (by decide)⟩

/-- Counterexample to C8 as stated: team `c8tm` has two scored wins over
a date range of 4 weeks, so the claim requires the phases' score to be
`100 × (1 − 1) = 0`; but the score the phases actually use is
`1 − 2 + 0 = −1 ≠ 0` (the base-class formula, which does yield 0, is
overridden in `Phase1ACoverage` and `Phase2Greedy`). -/
theorem claim8_counterexample :
    hasSufficientSeasonData c8M = true ∧
    baseStrength c8M c8tm = 0 ∧
    phase1aStrength c8M c8tm = -1 ∧
    phase2Strength c8M c8tm = -1 ∧
    ((phase1aStrength c8M c8tm : ℚ) ≠ baseStrength c8M c8tm) := by
  have hwl : winLoss c8M c8tm.teamId = (2, 0) := by decide
  have hb : baseStrength c8M c8tm = 0 := by
    unfold baseStrength calculateSeasonRanking
    rw [if_pos (by decide), hwl]
    norm_num
  refine ⟨by decide, hb, by decide, by decide, ?_⟩
  have h1 : phase1aStrength c8M c8tm = -1 := by decide
  rw [h1, hb]
  norm_num

/-! ## Claim C9 -/

/-- C9: `_group_games_by_week` (both in `controller.py` and in
`true_multi_phase_scheduler.py`) assigns a candidate to a week bucket iff
that week is the week of the candidate's FIRST listed TSL (truthy
timeslot id present in `week_mapping`); a candidate is in at most one
bucket; and a candidate whose first TSL does not determine a week — in
particular one whose first TSL's timeslot is missing from the week
mapping — is in no bucket at all, regardless of its later TSLs, and so is
never offered to any phase. -/
theorem claim9_week_grouping (M : Model) (cands : List CandGame)
    (c : CandGame) :
    (∀ w, c ∈ weekBucket M cands w ↔
      (c ∈ cands ∧ candWeek M c = some w)) ∧
    (∀ w w', c ∈ weekBucket M cands w → c ∈ weekBucket M cands w' →
      w = w') ∧
    (candWeek M c = none → ∀ w, c ∉ weekBucket M cands w) := by
  have hmem : ∀ w, c ∈ weekBucket M cands w ↔
      (c ∈ cands ∧ candWeek M c = some w) := by
    intro w
    unfold weekBucket
    rw [List.mem_filter]
    constructor
    · rintro ⟨h1, h2⟩
      exact ⟨h1, by simpa using h2⟩
    · rintro ⟨h1, h2⟩
      exact ⟨h1, by simpa using h2⟩
  refine ⟨hmem, ?_, ?_⟩
  · intro w w' hw hw'
    have h1 := ((hmem w).1 hw).2
    have h2 := ((hmem w').1 hw').2
    rw [h1] at h2
    injection h2
  · intro hnone w hmm
    have h1 := ((hmem w).1 hmm).2
    rw [hnone] at h1
    cases h1

/-- Witness for C9: the candidate `c9cand`, whose first TSL sits on the
unmapped timeslot 9, lands in no bucket of its candidate list — even
though its second TSL maps to week 0 — while a candidate whose first TSL
maps to week 0 lands exactly in bucket 0. -/
theorem claim9_week_grouping_witness :
    c9cand ∉ weekBucket c9M [c9cand] 0 ∧
    candWeek c9M c9cand = none ∧
    c9M.weekOf 2 = some 0 ∧
    (⟨1, 2, 1, [⟨2, 2, 1, 0, 0⟩]⟩ : CandGame)
      ∈ weekBucket c9M [⟨1, 2, 1, [⟨2, 2, 1, 0, 0⟩]⟩] 0 :=
  ⟨(claim9_week_grouping c9M [c9cand] c9cand).2.2 (by decide) 0,
   by decide, by decide,
   ((claim9_week_grouping c9M [⟨1, 2, 1, [⟨2, 2, 1, 0, 0⟩]⟩]
      ⟨1, 2, 1, [⟨2, 2, 1, 0, 0⟩]⟩).1 0).2
    ⟨by decide, by decide⟩⟩

/-! ## Claim C10 -/

/-- C10: when a game's timeslot is missing from the day mapping and the
week mapping (or its `timeslot_id` is falsy), `_check_constraints`
reduces to exactly the TSL-uniqueness check, the coded same-division
check (itself guarded on truthy team ids) and the self-play check, and
`_update_indexes_add` leaves the team-day and team-week indexes
untouched — so such a game escapes the per-day and per-week capacity
enforcement entirely. -/
theorem claim10_unmapped_timeslot_skips_checks (M : Model) (mx : Nat)
    (S : Schedule) (g : Game)
    (hd : g.timeslotId = 0 ∨ M.dayOf g.timeslotId = none)
    (hw : g.timeslotId = 0 ∨ M.weekOf g.timeslotId = none) :
    checkConstraints M mx S g =
      (if (S.byTsl g.tslId).isSome then [Violation.tslUsed] else [])
        ++ (if g.teamA ≠ 0 ∧ g.teamB ≠ 0 then
              (if M.teamDivision g.teamA ≠ M.teamDivision g.teamB then
                [Violation.divisionMismatch] else []) else [])
        ++ (if g.teamA = g.teamB then [Violation.selfPlay] else []) ∧
    (∀ k, (updateIndexesAdd M S g).byTeamDay k = S.byTeamDay k) ∧
    (∀ k, (updateIndexesAdd M S g).byTeamWeek k = S.byTeamWeek k) := by
  refine ⟨?_, ?_, ?_⟩
  · unfold checkConstraints
    by_cases hts : g.timeslotId = 0
    · simp [hts]
    · have hd' : M.dayOf g.timeslotId = none := hd.resolve_left hts
      have hw' : M.weekOf g.timeslotId = none := hw.resolve_left hts
      simp [hts, hd', hw']
  · rintro ⟨t, d⟩
    rw [uia_day, if_neg]
    rintro ⟨hts, hsome, _⟩
    rcases hd with hd | hd
    · exact hts hd
    · rw [hd] at hsome
      cases hsome
  · rintro ⟨t, w⟩
    rw [uia_week, if_neg]
    rintro ⟨hts, hsome, _⟩
    rcases hw with hw | hw
    · exact hts hw
    · rw [hw] at hsome
      cases hsome

/-- Witness for C10: in the concrete model `c10M` whose mappings do not
know timeslot 50, the check-reduction applies, and — consequence — with
`max_games_per_week = 1` two games of team 1 on the SAME (unmapped)
timeslot and calendar date are both committed, exceeding any per-day and
per-week cap. -/
theorem claim10_unmapped_timeslot_skips_checks_witness :
    (checkConstraints c10M 1 Schedule.empty c10g1 =
      (if (Schedule.empty.byTsl c10g1.tslId).isSome then
        [Violation.tslUsed] else [])
        ++ (if c10g1.teamA ≠ 0 ∧ c10g1.teamB ≠ 0 then
              (if c10M.teamDivision c10g1.teamA
                  ≠ c10M.teamDivision c10g1.teamB then
                [Violation.divisionMismatch] else []) else [])
        ++ (if c10g1.teamA = c10g1.teamB then [Violation.selfPlay]
            else []) ∧
      (∀ k, (updateIndexesAdd c10M Schedule.empty c10g1).byTeamDay k
        = Schedule.empty.byTeamDay k) ∧
      (∀ k, (updateIndexesAdd c10M Schedule.empty c10g1).byTeamWeek k
        = Schedule.empty.byTeamWeek k)) ∧
    (addGame c10M 1 Schedule.empty c10g1).1 = true ∧
    (addGame c10M 1 (addGame c10M 1 Schedule.empty c10g1).2 c10g2).1
      = true ∧
    c10g1.timeslotId = c10g2.timeslotId ∧
    c10g1.date = c10g2.date ∧
    c10g1.teamA = 1 ∧ c10g2.teamA = 1 ∧
    c10M.dayOf 50 = none ∧ c10M.weekOf 50 = none :=
  ⟨claim10_unmapped_timeslot_skips_checks c10M 1 Schedule.empty c10g1
    (Or.inr (by decide)) (Or.inr (by decide)),
   by decide, by decide, by decide, by decide, by decide, by decide,
   by decide, by decide⟩

end LeaguePairings
